import Mathlib

/-!
# stata: ephemeral self-signed certificate provider

A shallow embedding of `main.go` (functions `main` and `generateTempCert`).

The program is a sequence of calls into the Go standard library.  Each such
call is recorded, with its arguments, in a trace; what the library returns is
read from an environment `Env`; the files the program creates live in a small
file-system state.  Go semantics that the properties below depend on (deferred calls,
`log.Fatal`, `os.Exit`, `filepath.Join`, `time.Time.Add`, `net.ParseIP`) are
modelled after the Go documentation and library sources.
-/

namespace Stata

/-! ## package time -/

/-- A `time.Duration`: a signed count of nanoseconds (an `int64` in Go). -/
abbrev time.Duration := Int

def time.Nanosecond : time.Duration := 1
def time.Microsecond : time.Duration := 1000 * time.Nanosecond
def time.Millisecond : time.Duration := 1000 * time.Microsecond
def time.Second : time.Duration := 1000 * time.Millisecond
def time.Minute : time.Duration := 60 * time.Second
def time.Hour : time.Duration := 60 * time.Minute

/-- The wall-clock part of a `time.Time`: whole seconds and the nanosecond
offset within the second (`0 ≤ nsec < 10^9`).  The monotonic-clock reading is
left out, it takes no part in the comparison of instants. -/
structure time.Time where
  sec : Int
  nsec : Int
deriving DecidableEq, Repr

/-- The method `Time.Add`: split the duration into seconds and nanoseconds
(Go's `/` and `%` truncate toward zero), add the nanoseconds, carry. -/
def time.Time.Add (t : time.Time) (d : time.Duration) : time.Time :=
  let dsec := Int.tdiv d 1000000000
  let nsec := t.nsec + Int.tmod d 1000000000
  if nsec ≥ 1000000000 then { sec := t.sec + (dsec + 1), nsec := nsec - 1000000000 }
  else if nsec < 0 then { sec := t.sec + (dsec - 1), nsec := nsec + 1000000000 }
  else { sec := t.sec + dsec, nsec := nsec }

/-- The method `Time.Sub`: the duration `t - u` in nanoseconds. -/
def time.Time.Sub (t u : time.Time) : time.Duration :=
  (t.sec - u.sec) * 1000000000 + (t.nsec - u.nsec)

/-- The method `Time.Before`. -/
def time.Time.Before (t u : time.Time) : Bool :=
  decide (t.sec < u.sec) || (decide (t.sec = u.sec) && decide (t.nsec < u.nsec))

/-- The method `Time.After`. -/
def time.Time.After (t u : time.Time) : Bool :=
  decide (t.sec > u.sec) || (decide (t.sec = u.sec) && decide (t.nsec > u.nsec))

/-! ## package net -/

/-- A `net.IP`: a slice of bytes. -/
abbrev net.IP := List Nat

/-- The 12-byte header of an IPv4 address in 16-byte form. -/
def net.v4InV6Header : List Nat := [0, 0, 0, 0, 0, 0, 0, 0, 0, 0, 0xff, 0xff]

/-- The function `net.IPv4`: the 16-byte form of the IPv4 address `a.b.c.d`. -/
def net.IPv4 (a b c d : Nat) : net.IP := net.v4InV6Header ++ [a, b, c, d]

/-- The method `IP.To4`: the 4-byte form of an IPv4 address, `none` otherwise. -/
def net.IP.To4 (ip : net.IP) : Option net.IP :=
  if ip.length = 4 then some ip
  else if ip.length = 16 ∧ ip.take 12 = net.v4InV6Header then some (ip.drop 12)
  else none

/-- State of the dotted-decimal scanner of `parseIPv4`: the octets completed,
the value and the digit count of the octet being read, and the previous byte. -/
structure net.V4Scan where
  fields : List Nat
  val : Nat
  digLen : Nat
  prev : Option Char

/-- The loop of `parseIPv4` over the bytes of the string; `none` is a parse error. -/
def net.parseIPv4Loop : List Char → net.V4Scan → Option net.V4Scan
  | [], st => some st
  | c :: rest, st =>
    if '0' ≤ c ∧ c ≤ '9' then
      if st.digLen = 1 ∧ st.val = 0 then none
      else
        let val := st.val * 10 + (c.toNat - '0'.toNat)
        if val > 255 then none
        else net.parseIPv4Loop rest { st with val := val, digLen := st.digLen + 1, prev := some c }
    else if c = '.' then
      if st.prev = none ∨ rest = [] ∨ st.prev = some '.' then none
      else if st.fields.length = 3 then none
      else net.parseIPv4Loop rest
        { fields := st.fields ++ [st.val], val := 0, digLen := 0, prev := some c }
    else none

/-- The function `net.ParseIP`, for dotted-decimal IPv4 text (the IPv6 forms,
which contain a colon, are not modelled and give `none`, Go's `nil`). -/
def net.ParseIP (s : String) : Option net.IP :=
  match net.parseIPv4Loop s.data { fields := [], val := 0, digLen := 0, prev := none } with
  | none => none
  | some st =>
    match st.fields with
    | [a, b, c] => some (net.IPv4 a b c st.val)
    | _ => none

/-! ## packages crypto/rsa, crypto/x509, encoding/pem -/

/-- An `rsa.PublicKey`. -/
structure rsa.PublicKey where
  N : Nat
  E : Nat
deriving DecidableEq, Repr

/-- An `rsa.PrivateKey`; it embeds its public half. -/
structure rsa.PrivateKey where
  PublicKey : rsa.PublicKey
  D : Nat
  Primes : List Nat
deriving DecidableEq, Repr

/-- A `pkix.Name`; fields that are not set hold Go's zero value. -/
structure pkix.Name where
  Country : List String := []
  Organization : List String := []
  OrganizationalUnit : List String := []
  CommonName : String := ""
deriving DecidableEq, Repr

/-- The type `x509.KeyUsage`: a bit set. -/
abbrev x509.KeyUsage := Nat

def x509.KeyUsageDigitalSignature : x509.KeyUsage := 1 <<< 0
def x509.KeyUsageContentCommitment : x509.KeyUsage := 1 <<< 1
def x509.KeyUsageKeyEncipherment : x509.KeyUsage := 1 <<< 2
def x509.KeyUsageDataEncipherment : x509.KeyUsage := 1 <<< 3
def x509.KeyUsageKeyAgreement : x509.KeyUsage := 1 <<< 4
def x509.KeyUsageCertSign : x509.KeyUsage := 1 <<< 5
def x509.KeyUsageCRLSign : x509.KeyUsage := 1 <<< 6
def x509.KeyUsageEncipherOnly : x509.KeyUsage := 1 <<< 7
def x509.KeyUsageDecipherOnly : x509.KeyUsage := 1 <<< 8

/-- The type `x509.ExtKeyUsage`. -/
inductive x509.ExtKeyUsage where
  | ExtKeyUsageAny
  | ExtKeyUsageServerAuth
  | ExtKeyUsageClientAuth
  | ExtKeyUsageCodeSigning
  | ExtKeyUsageEmailProtection
  | ExtKeyUsageIPSECEndSystem
  | ExtKeyUsageIPSECTunnel
  | ExtKeyUsageIPSECUser
  | ExtKeyUsageTimeStamping
  | ExtKeyUsageOCSPSigning
  | ExtKeyUsageMicrosoftServerGatedCrypto
  | ExtKeyUsageNetscapeServerGatedCrypto
  | ExtKeyUsageMicrosoftCommercialCodeSigning
  | ExtKeyUsageMicrosoftKernelCodeSigning
deriving DecidableEq, Repr

/-- The fields of `x509.Certificate` that a template can carry about serial
number, subject, validity, usage, constraints and alternative names.  A field
that a composite literal does not mention holds Go's zero value, given here as
the default. -/
structure x509.Certificate where
  SerialNumber : Option Nat := none
  Subject : pkix.Name := {}
  NotBefore : time.Time := { sec := 0, nsec := 0 }
  NotAfter : time.Time := { sec := 0, nsec := 0 }
  KeyUsage : x509.KeyUsage := 0
  ExtKeyUsage : List x509.ExtKeyUsage := []
  BasicConstraintsValid : Bool := false
  IsCA : Bool := false
  DNSNames : List String := []
  EmailAddresses : List String := []
  IPAddresses : List (Option net.IP) := []
  URIs : List String := []
deriving DecidableEq, Repr

/-- A `pem.Block` (without headers, none are used). -/
structure pem.Block where
  Typ : String
  Bytes : List Nat
deriving DecidableEq, Repr

/-- An `io.Reader` handed to the crypto functions as their source of
randomness: `crypto/rand.Reader`, or some other reader. -/
inductive Reader where
  | cryptoRand
  | other (name : String)
deriving DecidableEq, Repr

/-! ## package path/filepath (Unix) -/

/-- Where the scanner of `filepath.Clean` stands: at the start of a path
element, inside a real path element that is being copied, or on the second dot
of a `..` element. -/
inductive filepath.Mode where
  | start
  | copy
  | skip
deriving DecidableEq, Repr

/-- The test `r+1 == n || os.IsPathSeparator(path[r+1])` of `Clean`, on what
follows the byte at `r`. -/
def filepath.elemEnd : List Char → Bool
  | [] => true
  | c :: _ => c == '/'

/-- The inner loop of the `..` case of `Clean` on the reversed buffer `w`
whose removed byte was `c`: step back to the previous separator, not past
`dotdot`. -/
def filepath.backtrack (dotdot : Nat) : List Char → Char → List Char
  | [], _ => []
  | c1 :: w, c =>
    if (c1 :: w).length > dotdot ∧ c ≠ '/' then filepath.backtrack dotdot w c1 else c1 :: w

/-- The separator that `Clean` writes before a real path element:
`if rooted && out.w != 1 || !rooted && out.w != 0 { out.append(Separator) }`. -/
def filepath.addSep (rooted : Bool) (out : List Char) : List Char :=
  if (rooted && out.length != 1) || (!rooted && out.length != 0) then '/' :: out else out

/-- The main loop `for r < n` of `filepath.Clean`.  The first argument is the
unread rest of the path, `out` is the output buffer in reverse (last byte
first), `dotdot` the index where `..` must stop.  One byte is consumed per
step; the result is the final buffer and `dotdot`. -/
def filepath.cleanLoop (rooted : Bool) :
    List Char → filepath.Mode → List Char × Nat → List Char × Nat
  | [], _, st => st
  | _ :: rest, .skip, st => filepath.cleanLoop rooted rest .start st
  | c :: rest, .copy, (out, dotdot) =>
    if c = '/' then filepath.cleanLoop rooted rest .start (out, dotdot)
    else filepath.cleanLoop rooted rest .copy (c :: out, dotdot)
  | c :: rest, .start, (out, dotdot) =>
    if c = '/' then
      -- empty path element
      filepath.cleanLoop rooted rest .start (out, dotdot)
    else if c = '.' ∧ filepath.elemEnd rest then
      -- . element
      filepath.cleanLoop rooted rest .start (out, dotdot)
    else if c = '.' ∧ rest.head? = some '.' ∧ filepath.elemEnd rest.tail then
      -- .. element: remove to last separator
      if out.length > dotdot then
        -- can backtrack
        match out with
        | [] => filepath.cleanLoop rooted rest .skip (out, dotdot)
        | c1 :: w => filepath.cleanLoop rooted rest .skip (filepath.backtrack dotdot w c1, dotdot)
      else if !rooted then
        -- cannot backtrack, but not rooted, so append .. element.
        let out1 := if out.length > 0 then '/' :: out else out
        let out2 := '.' :: '.' :: out1
        filepath.cleanLoop rooted rest .skip (out2, out2.length)
      else filepath.cleanLoop rooted rest .skip (out, dotdot)
    else
      -- real path element: add slash if needed, copy element
      filepath.cleanLoop rooted rest .copy (c :: filepath.addSep rooted out, dotdot)

/-- The function `filepath.Clean` on the bytes of a path.  (A path is held as
a list of characters; `Clean` only tests bytes against `/` and `.`, which are
ASCII, so this agrees with the byte-wise reading.) -/
def filepath.cleanBytes (path : List Char) : List Char :=
  match path with
  | [] => ['.']
  | c :: rest =>
    let rooted := c == '/'
    let st := if rooted then filepath.cleanLoop rooted rest .start (['/'], 1)
      else filepath.cleanLoop rooted (c :: rest) .start ([], 0)
    -- Turn empty string into "."
    if st.1.length = 0 then ['.'] else st.1.reverse

/-- The function `filepath.Clean`. -/
def filepath.Clean (path : String) : String := String.mk (filepath.cleanBytes path.data)

/-- The function `filepath.Join`: the elements from the first non-empty one
on, joined by the separator and cleaned; the empty string when there is none. -/
def filepath.Join : List String → String
  | [] => ""
  | e :: rest =>
    if e ≠ "" then filepath.Clean (String.intercalate "/" (e :: rest))
    else filepath.Join rest

/-! ## the environment, the trace and the file system -/

/-- The library calls of `generateTempCert` that can return an error, in the
order of the source (lines 85, 91, 99, 119, 126, 130, 133, 139, 143, 147, 150). -/
inductive Step where
  | MkdirTemp
  | GenerateKey
  | RandInt
  | CreateCertificate
  | CreateCertFile
  | EncodeCert
  | CloseCert
  | OpenKeyFile
  | MarshalPKCS8
  | EncodeKey
  | CloseKey
deriving DecidableEq, Repr, Fintype

/-- Position of a step in the source order. -/
def Step.index : Step → Nat
  | .MkdirTemp => 0
  | .GenerateKey => 1
  | .RandInt => 2
  | .CreateCertificate => 3
  | .CreateCertFile => 4
  | .EncodeCert => 5
  | .CloseCert => 6
  | .OpenKeyFile => 7
  | .MarshalPKCS8 => 8
  | .EncodeKey => 9
  | .CloseKey => 10

/-- What the world outside the program answers.  `err s` is the error, if any,
that the library call at step `s` returns; the other fields are the values the
calls return when they succeed.  `RandInt_lt` is the contract of
`crypto/rand.Int`: a value in `[0, max)`. -/
structure Env where
  umask : Nat
  err : Step → Option String
  MkdirTemp : String → String → String
  GenerateKey : Reader → Nat → rsa.PrivateKey
  Now : time.Time
  RandInt : Reader → Nat → Nat
  RandInt_lt : ∀ r max, 0 < max → RandInt r max < max
  CreateCertificate :
    Reader → x509.Certificate → x509.Certificate → rsa.PublicKey → rsa.PrivateKey → List Nat
  MarshalPKCS8PrivateKey : rsa.PrivateKey → List Nat
  Abs : String → Except String String
  StatIsNotExist : String → Bool
  ListenAndServeTLS : String
  ListenAndServe : String

/-- A call into the standard library, with its arguments. -/
inductive Call where
  | MkdirTemp (dir pattern : String)
  | GenerateKey (random : Reader) (bits : Nat)
  | Now
  | RandInt (random : Reader) (max : Nat)
  | CreateCertificate (random : Reader) (template parent : x509.Certificate)
      (pub : rsa.PublicKey) (priv : rsa.PrivateKey)
  | OpenFile (name : String) (flag perm : Nat)
  | Chmod (name : String) (mode : Nat)
  | PemEncode (out : String) (b : pem.Block)
  | Close (file : String)
  | MarshalPKCS8PrivateKey (key : rsa.PrivateKey)
  | Remove (name : String)
  | Abs (path : String)
  | Stat (name : String)
  | Handle (pattern dir : String)
  | Printf (text : String)
  | ListenAndServeTLS (addr : String) (minVersion : Nat) (certFile keyFile : String)
  | ListenAndServe (addr : String)
  | LogPrint (text : String)
  | Exit (code : Nat)
deriving DecidableEq, Repr

/-- A file on disk: its permission bits and the PEM blocks written to it since
it was created or truncated. -/
structure FileState where
  Mode : Nat
  Blocks : List pem.Block
deriving DecidableEq, Repr

/-- The state the program acts on: the files by path, and the calls made so
far, oldest first. -/
structure World where
  fs : String → Option FileState
  trace : List Call

/-- Record a call. -/
def World.log (w : World) (c : Call) : World := { w with trace := w.trace ++ [c] }

/-- Replace what is stored at a path. -/
def World.setFile (w : World) (name : String) (f : Option FileState) : World :=
  { w with fs := fun p => if p = name then f else w.fs p }

/-- Effect of a successful write of a PEM block to an open file: the block is
appended to what the file holds. -/
def World.write (w : World) (out : String) (b : pem.Block) : World :=
  match w.fs out with
  | some f => w.setFile out (some { f with Blocks := f.Blocks ++ [b] })
  | none => w

/-! ## package os -/

def os.O_WRONLY : Nat := 0x1
def os.O_RDWR : Nat := 0x2
def os.O_CREATE : Nat := 0x40
def os.O_TRUNC : Nat := 0x200

/-- Go's `a &^ b` (AND NOT) on naturals. -/
def andNot (a b : Nat) : Nat := a ^^^ (a &&& b)

/-- Effect of a successful `open(2)`: a missing file is created under
`O_CREATE` with mode `perm &^ umask`; an existing file keeps its mode and is
emptied under `O_TRUNC`. -/
def World.openFile (w : World) (umask : Nat) (name : String) (flag perm : Nat) : World :=
  match w.fs name with
  | some f =>
    if flag &&& os.O_TRUNC ≠ 0 then w.setFile name (some { f with Blocks := [] }) else w
  | none =>
    if flag &&& os.O_CREATE ≠ 0 then
      w.setFile name (some { Mode := andNot perm umask, Blocks := [] })
    else w

/-- The call `os.MkdirTemp(dir, pattern)`. -/
def os.MkdirTemp (env : Env) (dir pattern : String) (w : World) : Except String String × World :=
  let w := w.log (.MkdirTemp dir pattern)
  match env.err .MkdirTemp with
  | some err => (.error err, w)
  | none => (.ok (env.MkdirTemp dir pattern), w)

/-- The call `os.OpenFile(name, flag, perm)` made at step `s`; the file handle
it returns is identified with the path. -/
def os.OpenFile (env : Env) (s : Step) (name : String) (flag perm : Nat) (w : World) :
    Option String × World :=
  let w := w.log (.OpenFile name flag perm)
  match env.err s with
  | some err => (some err, w)
  | none => (none, w.openFile env.umask name flag perm)

/-- The call `os.Create(name)`, which is
`OpenFile(name, O_RDWR|O_CREATE|O_TRUNC, 0666)`. -/
def os.Create (env : Env) (s : Step) (name : String) (w : World) : Option String × World :=
  os.OpenFile env s name (os.O_RDWR ||| os.O_CREATE ||| os.O_TRUNC) 0o666 w

/-- The method `(*os.File).Close` at step `s`. -/
def os.File.Close (env : Env) (s : Step) (file : String) (w : World) : Option String × World :=
  (env.err s, w.log (.Close file))

/-- The call `os.Remove(name)`; the program discards its result. -/
def os.Remove (name : String) (w : World) : World :=
  (w.log (.Remove name)).setFile name none

/-! ## the crypto and encoding calls -/

/-- The call `rsa.GenerateKey(random, bits)`. -/
def rsa.GenerateKey (env : Env) (random : Reader) (bits : Nat) (w : World) :
    Except String rsa.PrivateKey × World :=
  let w := w.log (.GenerateKey random bits)
  match env.err .GenerateKey with
  | some err => (.error err, w)
  | none => (.ok (env.GenerateKey random bits), w)

/-- The call `time.Now()`. -/
def time.Now (env : Env) (w : World) : time.Time × World := (env.Now, w.log .Now)

/-- The call `rand.Int(random, max)`. -/
def rand.Int (env : Env) (random : Reader) (max : Nat) (w : World) : Except String Nat × World :=
  let w := w.log (.RandInt random max)
  match env.err .RandInt with
  | some err => (.error err, w)
  | none => (.ok (env.RandInt random max), w)

/-- The call `x509.CreateCertificate(random, template, parent, pub, priv)`,
which returns the DER bytes. -/
def x509.CreateCertificate (env : Env) (random : Reader) (template parent : x509.Certificate)
    (pub : rsa.PublicKey) (priv : rsa.PrivateKey) (w : World) : Except String (List Nat) × World :=
  let w := w.log (.CreateCertificate random template parent pub priv)
  match env.err .CreateCertificate with
  | some err => (.error err, w)
  | none => (.ok (env.CreateCertificate random template parent pub priv), w)

/-- The call `x509.MarshalPKCS8PrivateKey(key)`. -/
def x509.MarshalPKCS8PrivateKey (env : Env) (key : rsa.PrivateKey) (w : World) :
    Except String (List Nat) × World :=
  let w := w.log (.MarshalPKCS8PrivateKey key)
  match env.err .MarshalPKCS8 with
  | some err => (.error err, w)
  | none => (.ok (env.MarshalPKCS8PrivateKey key), w)

/-- The call `pem.Encode(out, b)` at step `s`: on success the block is
appended to the file behind `out`. -/
def pem.Encode (env : Env) (s : Step) (out : String) (b : pem.Block) (w : World) :
    Option String × World :=
  let w := w.log (.PemEncode out b)
  match env.err s with
  | some err => (some err, w)
  | none => (none, w.write out b)

/-! ## main.go -/

/-- What `generateTempCert` returns: `(certFile, keyFile, err)`. -/
structure Result where
  certFile : String
  keyFile : String
  err : Option String
deriving DecidableEq, Repr

/-- The function `generateTempCert` (main.go, lines 83-155). -/
def generateTempCert (env : Env) (w : World) : Result × World :=
  -- Create a temporary directory
  match os.MkdirTemp env "" "stata_cert" w with
  | (.error err, w) => (⟨"", "", some ("failed to create temp directory: " ++ err)⟩, w)
  | (.ok tempDir, w) =>
  -- Generate a private key
  match rsa.GenerateKey env .cryptoRand 2048 w with
  | (.error err, w) => (⟨"", "", some ("failed to generate private key: " ++ err)⟩, w)
  | (.ok privateKey, w) =>
  -- Prepare certificate template
  match time.Now env w with
  | (notBefore, w) =>
  let notAfter := notBefore.Add (365 * 24 * time.Hour)
  match rand.Int env .cryptoRand ((1 : Nat) <<< 128) w with
  | (.error err, w) => (⟨"", "", some ("failed to generate serial number: " ++ err)⟩, w)
  | (.ok serialNumber, w) =>
  let template : x509.Certificate := {
    SerialNumber := some serialNumber
    Subject := { Organization := ["Stata Temporary Cert"] }
    NotBefore := notBefore
    NotAfter := notAfter
    KeyUsage := x509.KeyUsageKeyEncipherment ||| x509.KeyUsageDigitalSignature
    ExtKeyUsage := [x509.ExtKeyUsage.ExtKeyUsageServerAuth]
    BasicConstraintsValid := true
    IPAddresses := [net.ParseIP "127.0.0.1"]
    DNSNames := ["localhost"] }
  -- Create the certificate
  match x509.CreateCertificate env .cryptoRand template template privateKey.PublicKey
      privateKey w with
  | (.error err, w) => (⟨"", "", some ("failed to create certificate: " ++ err)⟩, w)
  | (.ok derBytes, w) =>
  -- Write the certificate to a temporary file
  let certFile := filepath.Join [tempDir, "cert.pem"]
  match os.Create env .CreateCertFile certFile w with
  | (some err, w) => (⟨"", "", some ("failed to open cert.pem for writing: " ++ err)⟩, w)
  | (none, w) =>
  let certOut := certFile
  match pem.Encode env .EncodeCert certOut { Typ := "CERTIFICATE", Bytes := derBytes } w with
  | (some err, w) => (⟨"", "", some ("failed to write data to cert.pem: " ++ err)⟩, w)
  | (none, w) =>
  match os.File.Close env .CloseCert certOut w with
  | (some err, w) => (⟨"", "", some ("error closing cert.pem: " ++ err)⟩, w)
  | (none, w) =>
  -- Write the private key to a temporary file
  let keyFile := filepath.Join [tempDir, "key.pem"]
  match os.OpenFile env .OpenKeyFile keyFile (os.O_WRONLY ||| os.O_CREATE ||| os.O_TRUNC)
      0o600 w with
  | (some err, w) => (⟨"", "", some ("failed to open key.pem for writing: " ++ err)⟩, w)
  | (none, w) =>
  let keyOut := keyFile
  match x509.MarshalPKCS8PrivateKey env privateKey w with
  | (.error err, w) => (⟨"", "", some ("unable to marshal private key: " ++ err)⟩, w)
  | (.ok privBytes, w) =>
  match pem.Encode env .EncodeKey keyOut { Typ := "PRIVATE KEY", Bytes := privBytes } w with
  | (some err, w) => (⟨"", "", some ("failed to write data to key.pem: " ++ err)⟩, w)
  | (none, w) =>
  match os.File.Close env .CloseKey keyOut w with
  | (some err, w) => (⟨"", "", some ("error closing key.pem: " ++ err)⟩, w)
  | (none, w) =>
  (⟨certFile, keyFile, none⟩, w)

/-- The command-line flags after `flag.Parse()`, with the defaults of lines 23-26. -/
structure Flags where
  port : Int := 8080
  bind : String := "127.0.0.1"
  dir : String := "."
  secure : Bool := false
deriving DecidableEq, Repr

/-- The constant `tls.VersionTLS12`. -/
def tls.VersionTLS12 : Nat := 0x0303

/-- How the run of `main` ends: its world, the deferred calls `os.Remove(name)`
that were registered and have not run (last registered first), and the exit
status of the process. -/
structure Run where
  world : World
  pending : List String
  code : Nat

/-- The call `log.Fatal(v)` / `log.Fatalf(...)`: print, then `os.Exit(1)`.
`os.Exit` terminates the program immediately; deferred functions are not run,
so the calls in `deferred` stay pending. -/
def log.Fatal (text : String) (deferred : List String) (w : World) : Run :=
  { world := (w.log (.LogPrint text)).log (.Exit 1), pending := deferred, code := 1 }

/-- Run deferred `os.Remove` calls, last registered first. -/
def runDeferred : List String → World → World
  | [], w => w
  | name :: rest, w => runDeferred rest (os.Remove name w)

/-- A function body that reaches its end: the deferred calls run, then the
process exits with status 0. -/
def returnFromMain (deferred : List String) (w : World) : Run :=
  { world := runDeferred deferred w, pending := [], code := 0 }

/-- The function `main` (main.go, lines 21-81), from the parsed flags on. -/
def main (flags : Flags) (env : Env) (w : World) : Run :=
  -- Get the absolute path of the directory
  let w := w.log (.Abs flags.dir)
  match env.Abs flags.dir with
  | .error err => log.Fatal err [] w
  | .ok absDir =>
  -- Check if the directory exists
  let w := w.log (.Stat absDir)
  if env.StatIsNotExist absDir then
    log.Fatal ("Directory does not exist: " ++ absDir) [] w
  else
  -- Create a file server handler, set up the handler
  let w := w.log (.Handle "/" absDir)
  -- Prepare the server
  let addr := flags.bind ++ ":" ++ toString flags.port
  if flags.secure then
    -- Generate temporary certificate and key
    match generateTempCert env w with
    | (⟨_, _, some err⟩, w) =>
      log.Fatal ("Failed to generate temporary certificate: " ++ err) [] w
    | (⟨certFile, keyFile, none⟩, w) =>
    let deferred := [certFile]
    let deferred := keyFile :: deferred
    -- Print startup message
    let w := w.log (.Printf ("Serving " ++ absDir ++ " on https://" ++ addr ++ "\n"))
    -- Start HTTPS server
    let w := w.log (.ListenAndServeTLS addr tls.VersionTLS12 certFile keyFile)
    log.Fatal env.ListenAndServeTLS deferred w
  else
    -- Print startup message
    let w := w.log (.Printf ("Serving " ++ absDir ++ " on http://" ++ addr ++ "\n"))
    -- Start HTTP server
    let w := w.log (.ListenAndServe addr)
    log.Fatal env.ListenAndServe [] w

/-! ## vocabulary of the statements -/

/-- The text with which `generateTempCert` wraps the error of each step
(the format strings of lines 87, 93, 101, 121, 128, 131, 134, 141, 145, 148,
151 up to the verb `%v`). -/
def Step.message : Step → String
  | .MkdirTemp => "failed to create temp directory: "
  | .GenerateKey => "failed to generate private key: "
  | .RandInt => "failed to generate serial number: "
  | .CreateCertificate => "failed to create certificate: "
  | .CreateCertFile => "failed to open cert.pem for writing: "
  | .EncodeCert => "failed to write data to cert.pem: "
  | .CloseCert => "error closing cert.pem: "
  | .OpenKeyFile => "failed to open key.pem for writing: "
  | .MarshalPKCS8 => "unable to marshal private key: "
  | .EncodeKey => "failed to write data to key.pem: "
  | .CloseKey => "error closing key.pem: "

/-- The certificate template that `generateTempCert` builds (lines 104-116)
from the time and the serial number the environment supplies. -/
def generateTempCert.template (env : Env) : x509.Certificate := {
  SerialNumber := some (env.RandInt .cryptoRand ((1 : Nat) <<< 128))
  Subject := { Organization := ["Stata Temporary Cert"] }
  NotBefore := env.Now
  NotAfter := env.Now.Add (365 * 24 * time.Hour)
  KeyUsage := x509.KeyUsageKeyEncipherment ||| x509.KeyUsageDigitalSignature
  ExtKeyUsage := [x509.ExtKeyUsage.ExtKeyUsageServerAuth]
  BasicConstraintsValid := true
  IPAddresses := [net.ParseIP "127.0.0.1"]
  DNSNames := ["localhost"] }

/-- The library calls of `generateTempCert` in source order, with the
arguments each receives once the calls before it have succeeded. -/
def generateTempCert.calls (env : Env) : List Call :=
  let tempDir := env.MkdirTemp "" "stata_cert"
  let privateKey := env.GenerateKey .cryptoRand 2048
  let template := generateTempCert.template env
  let certFile := filepath.Join [tempDir, "cert.pem"]
  let keyFile := filepath.Join [tempDir, "key.pem"]
  [ .MkdirTemp "" "stata_cert",
    .GenerateKey .cryptoRand 2048,
    .Now,
    .RandInt .cryptoRand ((1 : Nat) <<< 128),
    .CreateCertificate .cryptoRand template template privateKey.PublicKey privateKey,
    .OpenFile certFile (os.O_RDWR ||| os.O_CREATE ||| os.O_TRUNC) 0o666,
    .PemEncode certFile { Typ := "CERTIFICATE", Bytes :=
      env.CreateCertificate .cryptoRand template template privateKey.PublicKey privateKey },
    .Close certFile,
    .OpenFile keyFile (os.O_WRONLY ||| os.O_CREATE ||| os.O_TRUNC) 0o600,
    .MarshalPKCS8PrivateKey privateKey,
    .PemEncode keyFile { Typ := "PRIVATE KEY", Bytes := env.MarshalPKCS8PrivateKey privateKey },
    .Close keyFile ]

/-- The directory part of `filepath.Join [d, name]` for a plain file name:
the cleaned `d` followed by a separator where `Clean` writes one. -/
def filepath.dirPart (d : String) : List Char :=
  match d.data with
  | [] => []
  | c :: rest =>
    let rooted := c == '/'
    let st := if rooted then filepath.cleanLoop rooted rest .start (['/'], 1)
      else filepath.cleanLoop rooted (c :: rest) .start ([], 0)
    (filepath.addSep rooted st.1).reverse

/-! ## concrete environments -/

/-- An environment in which the calls of step `bad` (if any) return the error
`msg` and all other calls succeed: the temp directory is
`/tmp/stata_cert4021`, the clock reads 1700000000 s + 250 ns. -/
def sampleEnv (bad : Option Step) (msg : String) : Env where
  umask := 0o022
  err := fun s => if some s = bad then some msg else none
  MkdirTemp := fun _ pattern => "/tmp/" ++ pattern ++ "4021"
  GenerateKey := fun _ _ => { PublicKey := { N := 3233, E := 17 }, D := 413, Primes := [61, 53] }
  Now := { sec := 1700000000, nsec := 250 }
  RandInt := fun _ max => 0x1234 % max
  RandInt_lt := fun _ _ h => Nat.mod_lt _ h
  CreateCertificate := fun _ t _ pub _ => [0x30, 0x82, pub.N % 256, t.KeyUsage]
  MarshalPKCS8PrivateKey := fun k => [0x30, 0x82, k.D % 256]
  Abs := fun d => .ok ("/srv/" ++ d)
  StatIsNotExist := fun _ => false
  ListenAndServeTLS := "listen tcp 127.0.0.1:8080: bind: address already in use"
  ListenAndServe := "listen tcp 127.0.0.1:8080: bind: address already in use"

/-- A world with no files and no calls made. -/
def emptyWorld : World := { fs := fun _ => none, trace := [] }

/-- Two byte strings part ways: at some position both have a byte and the
bytes differ. -/
def diverge : List Char → List Char → Bool
  | c :: p, d :: q => if c = d then diverge p q else true
  | _, _ => false

/-- The `(flag, perm)` arguments of the `os.OpenFile` calls of a trace that
open the file `name`, oldest first. -/
def opensOf (name : String) : List Call → List (Nat × Nat)
  | [] => []
  | .OpenFile n flag perm :: rest =>
    if n = name then (flag, perm) :: opensOf name rest else opensOf name rest
  | _ :: rest => opensOf name rest

/-! ## lemmas: filepath -/

theorem filepath.elemEnd_append (p q : List Char) :
    filepath.elemEnd (p ++ '/' :: q) = filepath.elemEnd p := by
  cases p <;> simp [filepath.elemEnd]

theorem filepath.dotdot_append (p q : List Char) :
    ((p ++ '/' :: q).head? = some '.' ∧ filepath.elemEnd (p ++ '/' :: q).tail) =
      (p.head? = some '.' ∧ filepath.elemEnd p.tail) := by
  cases p with
  | nil => simp
  | cons c p => simp [filepath.elemEnd_append]

theorem filepath.cleanLoop_start (rooted : Bool) (c : Char) (rest out : List Char) (dotdot : Nat) :
    filepath.cleanLoop rooted (c :: rest) .start (out, dotdot) =
      if c = '/' then filepath.cleanLoop rooted rest .start (out, dotdot)
      else if c = '.' ∧ filepath.elemEnd rest then
        filepath.cleanLoop rooted rest .start (out, dotdot)
      else if c = '.' ∧ (rest.head? = some '.' ∧ filepath.elemEnd rest.tail) then
        if out.length > dotdot then
          match out with
          | [] => filepath.cleanLoop rooted rest .skip (out, dotdot)
          | c1 :: w => filepath.cleanLoop rooted rest .skip (filepath.backtrack dotdot w c1, dotdot)
        else if !rooted then
          filepath.cleanLoop rooted rest .skip
            ('.' :: '.' :: (if out.length > 0 then '/' :: out else out),
             ('.' :: '.' :: (if out.length > 0 then '/' :: out else out)).length)
        else filepath.cleanLoop rooted rest .skip (out, dotdot)
      else filepath.cleanLoop rooted rest .copy (c :: filepath.addSep rooted out, dotdot) := by
  simp only [filepath.cleanLoop]

theorem filepath.cleanLoop_append_sep (rooted : Bool) (p q : List Char) :
    ∀ (m : filepath.Mode) (st : List Char × Nat),
      filepath.cleanLoop rooted (p ++ '/' :: q) m st =
        filepath.cleanLoop rooted q .start (filepath.cleanLoop rooted p m st) := by
  induction p with
  | nil =>
    intro m st
    obtain ⟨out, dotdot⟩ := st
    cases m <;> simp [filepath.cleanLoop]
  | cons c p ih =>
    intro m st
    obtain ⟨out, dotdot⟩ := st
    cases m with
    | skip => simp [filepath.cleanLoop, ih]
    | copy =>
      simp only [List.cons_append, filepath.cleanLoop]
      split <;> simp [ih]
    | start =>
      rw [List.cons_append, filepath.cleanLoop_start, filepath.cleanLoop_start]
      simp only [filepath.elemEnd_append, filepath.dotdot_append, ih]
      repeat' split
      all_goals rfl



theorem filepath.cleanLoop_cert (rooted : Bool) (st : List Char × Nat) :
    filepath.cleanLoop rooted "cert.pem".data .start st =
      ("cert.pem".data.reverse ++ filepath.addSep rooted st.1, st.2) := by
  obtain ⟨out, dotdot⟩ := st
  simp [filepath.cleanLoop, filepath.elemEnd]

theorem filepath.cleanLoop_key (rooted : Bool) (st : List Char × Nat) :
    filepath.cleanLoop rooted "key.pem".data .start st =
      ("key.pem".data.reverse ++ filepath.addSep rooted st.1, st.2) := by
  obtain ⟨out, dotdot⟩ := st
  simp [filepath.cleanLoop, filepath.elemEnd]

theorem filepath.intercalate_pair (d name : String) :
    (String.intercalate "/" [d, name]).data = d.data ++ '/' :: name.data := by
  simp [String.intercalate, String.intercalate.go]

theorem filepath.cleanBytes_dir (d : String) (name : List Char) (hd : d ≠ "")
    (hne : name ≠ [])
    (hname : ∀ rooted st, filepath.cleanLoop rooted name .start st =
      (name.reverse ++ filepath.addSep rooted st.1, st.2)) :
    filepath.cleanBytes (d.data ++ '/' :: name) = filepath.dirPart d ++ name := by
  have hdata : d.data ≠ [] := by
    intro h
    apply hd
    cases d
    simp_all
  unfold filepath.dirPart
  cases hd' : d.data with
  | nil => exact absurd hd' hdata
  | cons c rest =>
    simp only [List.cons_append, filepath.cleanBytes]
    by_cases hc : c = '/'
    · subst hc
      simp [filepath.cleanLoop_append_sep, hname, hne]
    · have h1 : (c == '/') = false := by simpa using hc
      have h2 := filepath.cleanLoop_append_sep false (c :: rest) name .start ([], 0)
      rw [List.cons_append] at h2
      simp [h1, h2, hname, hne]

theorem filepath.Join_cert (d : String) :
    filepath.Join [d, "cert.pem"] = String.mk (filepath.dirPart d ++ "cert.pem".data) := by
  by_cases hd : d = ""
  · subst hd
    decide
  · simp only [filepath.Join, filepath.Clean, hd, ne_eq, not_false_eq_true, if_true,
      filepath.intercalate_pair]
    rw [filepath.cleanBytes_dir d _ hd (by decide) filepath.cleanLoop_cert]

theorem filepath.Join_key (d : String) :
    filepath.Join [d, "key.pem"] = String.mk (filepath.dirPart d ++ "key.pem".data) := by
  by_cases hd : d = ""
  · subst hd
    decide
  · simp only [filepath.Join, filepath.Clean, hd, ne_eq, not_false_eq_true, if_true,
      filepath.intercalate_pair]
    rw [filepath.cleanBytes_dir d _ hd (by decide) filepath.cleanLoop_key]

theorem filepath.Join_cert_ne_key (d : String) :
    filepath.Join [d, "cert.pem"] ≠ filepath.Join [d, "key.pem"] := by
  rw [filepath.Join_cert, filepath.Join_key]
  intro h
  have h2 := congrArg String.data h
  simp at h2

theorem filepath.Join_cert_ne_empty (d : String) : filepath.Join [d, "cert.pem"] ≠ "" := by
  rw [filepath.Join_cert]
  intro h
  have h2 := congrArg String.length h
  simp [String.length] at h2

theorem filepath.Join_key_ne_empty (d : String) : filepath.Join [d, "key.pem"] ≠ "" := by
  rw [filepath.Join_key]
  intro h
  have h2 := congrArg String.length h
  simp [String.length] at h2

/-! ## lemmas: the world -/

theorem World.log_fs (w : World) (c : Call) : (w.log c).fs = w.fs := rfl

theorem World.log_trace (w : World) (c : Call) : (w.log c).trace = w.trace ++ [c] := rfl

theorem World.openFile_trace (w : World) (u : Nat) (n : String) (flag perm : Nat) :
    (w.openFile u n flag perm).trace = w.trace := by
  unfold World.openFile
  repeat' split
  all_goals rfl

theorem World.write_trace (w : World) (n : String) (b : pem.Block) :
    (w.write n b).trace = w.trace := by
  unfold World.write
  split <;> rfl

theorem World.openFile_fs_congr (w1 w2 : World) (h : w1.fs = w2.fs) (u : Nat) (n : String)
    (flag perm : Nat) : (w1.openFile u n flag perm).fs = (w2.openFile u n flag perm).fs := by
  unfold World.openFile World.setFile
  rw [h]
  repeat' split
  all_goals simp_all

theorem World.write_fs_congr (w1 w2 : World) (h : w1.fs = w2.fs) (n : String) (b : pem.Block) :
    (w1.write n b).fs = (w2.write n b).fs := by
  unfold World.write World.setFile
  rw [h]
  split <;> simp_all

/-- Creating (or truncating) a file: afterwards it exists and is empty; its
mode is the old one if it existed, `perm &^ umask` if it is new. -/
theorem World.openFile_create_fs (w : World) (u : Nat) (n : String) (flag perm : Nat)
    (hc : flag &&& os.O_CREATE ≠ 0) (ht : flag &&& os.O_TRUNC ≠ 0) (p : String) :
    (w.openFile u n flag perm).fs p =
      if p = n then
        some { Mode := match w.fs n with
                 | some f => f.Mode
                 | none => andNot perm u,
               Blocks := [] }
      else w.fs p := by
  unfold World.openFile World.setFile
  cases h : w.fs n <;> simp [hc, ht]

theorem World.write_fs (w : World) (n : String) (b : pem.Block) (p : String) :
    (w.write n b).fs p =
      if p = n then (w.fs n).map (fun f => { f with Blocks := f.Blocks ++ [b] }) else w.fs p := by
  unfold World.write World.setFile
  cases h : w.fs n with
  | none =>
    by_cases hp : p = n
    · simp [hp, h]
    · simp [hp]
  | some f => simp

/-! ## lemmas: generateTempCert -/

theorem generateTempCert_fail (env : Env) (w : World) (s : Step) (e : String)
    (hbefore : ∀ s1 : Step, s1.index < s.index → env.err s1 = none) (hs : env.err s = some e) :
    (generateTempCert env w).1 = ⟨"", "", some (s.message ++ e)⟩ := by
  have h0 := hbefore .MkdirTemp
  have h1 := hbefore .GenerateKey
  have h2 := hbefore .RandInt
  have h3 := hbefore .CreateCertificate
  have h4 := hbefore .CreateCertFile
  have h5 := hbefore .EncodeCert
  have h6 := hbefore .CloseCert
  have h7 := hbefore .OpenKeyFile
  have h8 := hbefore .MarshalPKCS8
  have h9 := hbefore .EncodeKey
  cases s <;> simp only [Step.index, Nat.lt_irrefl, Nat.not_lt_zero, false_implies,
    Nat.reduceLT, true_implies] at h0 h1 h2 h3 h4 h5 h6 h7 h8 h9 <;>
  simp [generateTempCert, os.MkdirTemp, rsa.GenerateKey, time.Now, rand.Int,
    x509.CreateCertificate, os.Create, os.OpenFile, pem.Encode, os.File.Close,
    x509.MarshalPKCS8PrivateKey, Step.message, *]

theorem generateTempCert_ok (env : Env) (w : World) (hall : ∀ s, env.err s = none) :
    (generateTempCert env w).1 =
      ⟨filepath.Join [env.MkdirTemp "" "stata_cert", "cert.pem"],
       filepath.Join [env.MkdirTemp "" "stata_cert", "key.pem"], none⟩ ∧
    (generateTempCert env w).2.trace = w.trace ++ generateTempCert.calls env := by
  simp [generateTempCert, os.MkdirTemp, rsa.GenerateKey, time.Now, rand.Int,
    x509.CreateCertificate, os.Create, os.OpenFile, pem.Encode, os.File.Close,
    x509.MarshalPKCS8PrivateKey, hall, generateTempCert.calls, generateTempCert.template,
    World.log_trace, World.openFile_trace, World.write_trace]


theorem generateTempCert_ok_fs (env : Env) (w : World) (hall : ∀ s, env.err s = none) :
    (generateTempCert env w).2.fs =
      ((((w.openFile env.umask (filepath.Join [env.MkdirTemp "" "stata_cert", "cert.pem"])
            (os.O_RDWR ||| os.O_CREATE ||| os.O_TRUNC) 0o666).write
          (filepath.Join [env.MkdirTemp "" "stata_cert", "cert.pem"])
          { Typ := "CERTIFICATE", Bytes := env.CreateCertificate .cryptoRand
              (generateTempCert.template env) (generateTempCert.template env)
              (env.GenerateKey .cryptoRand 2048).PublicKey (env.GenerateKey .cryptoRand 2048) }).openFile
        env.umask (filepath.Join [env.MkdirTemp "" "stata_cert", "key.pem"])
          (os.O_WRONLY ||| os.O_CREATE ||| os.O_TRUNC) 0o600).write
        (filepath.Join [env.MkdirTemp "" "stata_cert", "key.pem"])
        { Typ := "PRIVATE KEY",
          Bytes := env.MarshalPKCS8PrivateKey (env.GenerateKey .cryptoRand 2048) }).fs := by
  simp only [generateTempCert, os.MkdirTemp, rsa.GenerateKey, time.Now, rand.Int,
    x509.CreateCertificate, os.Create, os.OpenFile, pem.Encode, os.File.Close,
    x509.MarshalPKCS8PrivateKey, hall, generateTempCert.template]
  apply World.write_fs_congr
  apply World.openFile_fs_congr
  simp only [World.log_fs]
  apply World.write_fs_congr
  apply World.openFile_fs_congr
  simp only [World.log_fs]

theorem Env.first_failure (env : Env) :
    (∀ s, env.err s = none) ∨
      ∃ s e, (∀ s1 : Step, s1.index < s.index → env.err s1 = none) ∧ env.err s = some e := by
  by_cases hall : ∀ s, env.err s = none
  · exact Or.inl hall
  · right
    by_contra hno
    apply hall
    have key : ∀ n, ∀ s : Step, s.index = n → env.err s = none := by
      intro n
      induction n using Nat.strong_induction_on with
      | _ n ih =>
        intro s hs
        cases he : env.err s with
        | none => rfl
        | some e =>
          exfalso
          apply hno
          exact ⟨s, e, fun s1 h1 => ih s1.index (hs ▸ h1) s1 rfl, he⟩
    intro s
    exact key s.index s rfl

theorem generateTempCert_fail_trace (env : Env) (w : World) (s : Step) (e : String)
    (hbefore : ∀ s1 : Step, s1.index < s.index → env.err s1 = none) (hs : env.err s = some e) :
    (generateTempCert env w).2.trace =
      w.trace ++ (generateTempCert.calls env).take (if s.index < 2 then s.index + 1 else s.index + 2) := by
  have h0 := hbefore .MkdirTemp
  have h1 := hbefore .GenerateKey
  have h2 := hbefore .RandInt
  have h3 := hbefore .CreateCertificate
  have h4 := hbefore .CreateCertFile
  have h5 := hbefore .EncodeCert
  have h6 := hbefore .CloseCert
  have h7 := hbefore .OpenKeyFile
  have h8 := hbefore .MarshalPKCS8
  have h9 := hbefore .EncodeKey
  cases s <;> simp only [Step.index, Nat.lt_irrefl, Nat.not_lt_zero, false_implies,
    Nat.reduceLT, true_implies] at h0 h1 h2 h3 h4 h5 h6 h7 h8 h9 <;>
  simp [generateTempCert, os.MkdirTemp, rsa.GenerateKey, time.Now, rand.Int,
    x509.CreateCertificate, os.Create, os.OpenFile, pem.Encode, os.File.Close,
    x509.MarshalPKCS8PrivateKey, generateTempCert.calls, generateTempCert.template, Step.index,
    World.log_trace, World.openFile_trace, World.write_trace, *]

theorem generateTempCert_trace (env : Env) (w : World) :
    ∃ n, (generateTempCert env w).2.trace = w.trace ++ (generateTempCert.calls env).take n := by
  rcases env.first_failure with hall | ⟨s, e, hb, hs⟩
  · exact ⟨12, by rw [(generateTempCert_ok env w hall).2]; simp [generateTempCert.calls]⟩
  · exact ⟨_, generateTempCert_fail_trace env w s e hb hs⟩

theorem generateTempCert_err_none (env : Env) (w : World)
    (h : (generateTempCert env w).1.err = none) : ∀ s, env.err s = none := by
  rcases env.first_failure with hall | ⟨s, e, hb, hs⟩
  · exact hall
  · rw [generateTempCert_fail env w s e hb hs] at h
    simp at h

theorem generateTempCert_mem_calls (env : Env) (fs : String → Option FileState) (c : Call)
    (h : c ∈ (generateTempCert env ⟨fs, []⟩).2.trace) : c ∈ generateTempCert.calls env := by
  obtain ⟨n, hn⟩ := generateTempCert_trace env ⟨fs, []⟩
  rw [hn] at h
  simp only [List.nil_append] at h
  exact List.mem_of_mem_take h

/-! ## properties of `generateTempCert` and `main` -/

theorem diverge_append (p q : List Char) (h : diverge p q = true) (a b : List Char) :
    p ++ a ≠ q ++ b := by
  induction p generalizing q with
  | nil => simp [diverge] at h
  | cons c p ih =>
    cases q with
    | nil => simp [diverge] at h
    | cons d q =>
      simp only [diverge] at h
      intro heq
      simp only [List.cons_append, List.cons.injEq] at heq
      by_cases hcd : c = d
      · simp only [hcd, if_true] at h
        exact ih q h heq.2
      · exact hcd heq.1

theorem Step.message_diverge :
    ∀ s1 s2 : Step, s1 ≠ s2 → diverge s1.message.data s2.message.data = true := by
  decide

/-- C2. Every step of `generateTempCert` that fails (the steps before it having
succeeded) makes it return empty paths and the error text of that step followed
by the cause; the texts of different steps never coincide; when no step fails
the error is nil and both paths are non-empty; so the error is non-nil exactly
when some step fails. -/
theorem generateTempCert_error_iff_step_failed (env : Env) (w : World) :
    (∀ (s : Step) (e : String), (∀ s1 : Step, s1.index < s.index → env.err s1 = none) →
        env.err s = some e →
        (generateTempCert env w).1 = ⟨"", "", some (s.message ++ e)⟩) ∧
    (∀ (s1 s2 : Step) (e1 e2 : String), s1 ≠ s2 → s1.message ++ e1 ≠ s2.message ++ e2) ∧
    ((∀ s, env.err s = none) →
        (generateTempCert env w).1.err = none ∧ (generateTempCert env w).1.certFile ≠ "" ∧
        (generateTempCert env w).1.keyFile ≠ "") ∧
    ((generateTempCert env w).1.err ≠ none ↔ ∃ s, env.err s ≠ none) := by
  refine ⟨fun s e hb hs => generateTempCert_fail env w s e hb hs, ?_, ?_, ?_⟩
  · intro s1 s2 e1 e2 hne heq
    have h := congrArg String.data heq
    simp only [String.data_append] at h
    exact diverge_append _ _ (Step.message_diverge s1 s2 hne) _ _ h
  · intro hall
    rw [(generateTempCert_ok env w hall).1]
    exact ⟨rfl, filepath.Join_cert_ne_empty _, filepath.Join_key_ne_empty _⟩
  · constructor
    · intro h
      by_contra hno
      push_neg at hno
      exact h (by rw [(generateTempCert_ok env w hno).1])
    · rintro ⟨s, hs⟩ h
      exact hs (generateTempCert_err_none env w h s)

/-- C2, at concrete inputs: closing `cert.pem` fails with "disk full"; and no
step fails. -/
theorem generateTempCert_error_iff_step_failed_witness :
    (generateTempCert (sampleEnv (some .CloseCert) "disk full") emptyWorld).1 =
        ⟨"", "", some "error closing cert.pem: disk full"⟩ ∧
    Step.message .EncodeCert ++ "x" ≠ Step.message .EncodeKey ++ "x" ∧
    ((generateTempCert (sampleEnv none "") emptyWorld).1.err = none ∧
      (generateTempCert (sampleEnv none "") emptyWorld).1.certFile ≠ "" ∧
      (generateTempCert (sampleEnv none "") emptyWorld).1.keyFile ≠ "") :=
  ⟨(generateTempCert_error_iff_step_failed (sampleEnv (some .CloseCert) "disk full")
      emptyWorld).1 .CloseCert "disk full" (by decide) (by decide),
   (generateTempCert_error_iff_step_failed (sampleEnv none "") emptyWorld).2.1
      .EncodeCert .EncodeKey "x" "x" (by decide),
   (generateTempCert_error_iff_step_failed (sampleEnv none "") emptyWorld).2.2.1
      (by decide)⟩

theorem generateTempCert_createCertificate (env : Env) (fs : String → Option FileState)
    (rnd : Reader) (t p : x509.Certificate) (pub : rsa.PublicKey) (priv : rsa.PrivateKey)
    (h : Call.CreateCertificate rnd t p pub priv ∈ (generateTempCert env ⟨fs, []⟩).2.trace) :
    rnd = .cryptoRand ∧ t = generateTempCert.template env ∧ p = generateTempCert.template env ∧
      pub = (env.GenerateKey .cryptoRand 2048).PublicKey ∧
      priv = env.GenerateKey .cryptoRand 2048 := by
  have hm := generateTempCert_mem_calls env fs _ h
  simpa [generateTempCert.calls] using hm

theorem generateTempCert_template_built (env : Env) (w : World)
    (h0 : env.err .MkdirTemp = none) (h1 : env.err .GenerateKey = none)
    (h2 : env.err .RandInt = none) :
    Call.CreateCertificate .cryptoRand (generateTempCert.template env)
      (generateTempCert.template env) (env.GenerateKey .cryptoRand 2048).PublicKey
      (env.GenerateKey .cryptoRand 2048) ∈ (generateTempCert env w).2.trace := by
  rcases env.first_failure with hall | ⟨s, e, hb, hs⟩
  · rw [(generateTempCert_ok env w hall).2]
    simp [generateTempCert.calls]
  · rw [generateTempCert_fail_trace env w s e hb hs]
    cases s <;> simp_all [generateTempCert.calls, Step.index]

theorem time.year_duration : (365 : Int) * 24 * time.Hour = 31536000000000000 := by
  decide

theorem time.Time.add_year (t : time.Time) :
    (t.Add (365 * 24 * time.Hour)).Sub t = 365 * 24 * time.Hour ∧
      t.Before t = false ∧ t.After (t.Add (365 * 24 * time.Hour)) = false ∧
      (0 ≤ t.nsec ∧ t.nsec < 1000000000 →
        t.Add (365 * 24 * time.Hour) = { sec := t.sec + 365 * 86400, nsec := t.nsec }) := by
  rw [time.year_duration]
  have hq : Int.tdiv 31536000000000000 1000000000 = 31536000 := by decide
  have hr : Int.tmod 31536000000000000 1000000000 = 0 := by decide
  simp only [time.Time.Add, time.Time.Sub, time.Time.Before, time.Time.After, hq, hr]
  refine ⟨?_, ?_, ?_, ?_⟩
  · split
    · dsimp only
      ring
    · split
      · dsimp only
        ring
      · dsimp only
        ring
  · simp
  · split
    · simp only [Bool.or_eq_false_iff, Bool.and_eq_false_imp, decide_eq_false_iff_not,
        decide_eq_true_eq]
      omega
    · split
      · simp only [Bool.or_eq_false_iff, Bool.and_eq_false_imp, decide_eq_false_iff_not,
          decide_eq_true_eq]
        omega
      · simp only [Bool.or_eq_false_iff, Bool.and_eq_false_imp, decide_eq_false_iff_not,
          decide_eq_true_eq]
        omega
  · rintro ⟨h1, h2⟩
    rw [if_neg (by omega), if_neg (by omega)]
    simp

/-- C4. Every certificate template that `generateTempCert` hands to
`x509.CreateCertificate` has `NotBefore` equal to the time `t` read from the
clock and `NotAfter = t.Add(365 * 24 * time.Hour)`; the two are exactly
365 days (31536000 s, a value that fits an int64 nanosecond count) apart, and
`t` is neither before `NotBefore` nor after `NotAfter`.  A template is built
whenever the three steps before it succeed. -/
theorem template_validity_is_365_days (env : Env) (fs : String → Option FileState) :
    (∀ rnd t p pub priv,
      Call.CreateCertificate rnd t p pub priv ∈ (generateTempCert env ⟨fs, []⟩).2.trace →
        t.NotBefore = env.Now ∧ t.NotAfter = env.Now.Add (365 * 24 * time.Hour) ∧
        t.NotAfter.Sub t.NotBefore = 365 * 24 * time.Hour ∧
        env.Now.Before t.NotBefore = false ∧ env.Now.After t.NotAfter = false ∧
        (0 ≤ env.Now.nsec ∧ env.Now.nsec < 1000000000 →
          t.NotAfter = { sec := env.Now.sec + 365 * 86400, nsec := env.Now.nsec })) ∧
    ((365 : Int) * 24 * time.Hour = 365 * 86400 * 1000000000 ∧
      (365 : Int) * 24 * time.Hour < 2 ^ 63) ∧
    (env.err .MkdirTemp = none → env.err .GenerateKey = none → env.err .RandInt = none →
      ∃ rnd t p pub priv,
        Call.CreateCertificate rnd t p pub priv ∈ (generateTempCert env ⟨fs, []⟩).2.trace) := by
  refine ⟨?_, ⟨by decide, by decide⟩, ?_⟩
  · intro rnd t p pub priv h
    obtain ⟨-, ht, -, -, -⟩ := generateTempCert_createCertificate env fs rnd t p pub priv h
    subst ht
    obtain ⟨a, b, c, d⟩ := time.Time.add_year env.Now
    exact ⟨rfl, rfl, a, b, c, d⟩
  · intro h0 h1 h2
    exact ⟨_, _, _, _, _, generateTempCert_template_built env _ h0 h1 h2⟩

/-- C4, at a concrete input: the clock reads 1700000000 s + 250 ns. -/
theorem template_validity_is_365_days_witness :
    (generateTempCert.template (sampleEnv none "")).NotBefore =
        { sec := 1700000000, nsec := 250 } ∧
      (generateTempCert.template (sampleEnv none "")).NotAfter =
        { sec := 1700000000 + 365 * 86400, nsec := 250 } :=
  have h := (template_validity_is_365_days (sampleEnv none "") (fun _ => none)).1
    .cryptoRand (generateTempCert.template (sampleEnv none ""))
    (generateTempCert.template (sampleEnv none ""))
    ((sampleEnv none "").GenerateKey .cryptoRand 2048).PublicKey
    ((sampleEnv none "").GenerateKey .cryptoRand 2048) (by decide)
  ⟨h.1, h.2.2.2.2.2 (by decide)⟩

theorem generateTempCert_randInt (env : Env) (fs : String → Option FileState) (rnd : Reader)
    (max : Nat) (h : Call.RandInt rnd max ∈ (generateTempCert env ⟨fs, []⟩).2.trace) :
    rnd = .cryptoRand ∧ max = (1 : Nat) <<< 128 := by
  have hm := generateTempCert_mem_calls env fs _ h
  simpa [generateTempCert.calls] using hm

/-- C5. The bound of every serial-number draw is `1 << 128 = 2^128` and the
draw reads `crypto/rand.Reader`; the serial number of every template is the
value `n` that this draw returned, with `0 ≤ n < 2^128`; a successful invocation
makes the draw and builds such a template; and the serial is not a constant:
every `v < 2^128` is the serial number of some successful invocation. -/
theorem serial_number_is_random_draw (env : Env) (fs : String → Option FileState) :
    (∀ rnd max, Call.RandInt rnd max ∈ (generateTempCert env ⟨fs, []⟩).2.trace →
      rnd = .cryptoRand ∧ max = (1 : Nat) <<< 128 ∧ max = 2 ^ 128) ∧
    (∀ rnd t p pub priv,
      Call.CreateCertificate rnd t p pub priv ∈ (generateTempCert env ⟨fs, []⟩).2.trace →
        ∃ n : Nat, t.SerialNumber = some n ∧ n = env.RandInt .cryptoRand ((1 : Nat) <<< 128) ∧
          0 ≤ n ∧ n < 2 ^ 128) ∧
    ((generateTempCert env ⟨fs, []⟩).1.err = none →
      Call.RandInt .cryptoRand ((1 : Nat) <<< 128) ∈ (generateTempCert env ⟨fs, []⟩).2.trace ∧
      ∃ t p pub priv, Call.CreateCertificate .cryptoRand t p pub priv ∈
        (generateTempCert env ⟨fs, []⟩).2.trace) ∧
    (∀ v : Nat, v < 2 ^ 128 → ∃ env1 : Env, (generateTempCert env1 ⟨fs, []⟩).1.err = none ∧
      ∃ t p pub priv, Call.CreateCertificate .cryptoRand t p pub priv ∈
        (generateTempCert env1 ⟨fs, []⟩).2.trace ∧ t.SerialNumber = some v) := by
  have hpow : (1 : Nat) <<< 128 = 2 ^ 128 := by decide
  refine ⟨?_, ?_, ?_, ?_⟩
  · intro rnd max h
    obtain ⟨h1, h2⟩ := generateTempCert_randInt env fs rnd max h
    exact ⟨h1, h2, h2.trans hpow⟩
  · intro rnd t p pub priv h
    obtain ⟨-, ht, -, -, -⟩ := generateTempCert_createCertificate env fs rnd t p pub priv h
    subst ht
    refine ⟨_, rfl, rfl, Nat.zero_le _, ?_⟩
    have := env.RandInt_lt .cryptoRand ((1 : Nat) <<< 128) (by decide)
    rwa [hpow] at this ⊢
  · intro hok
    have hall := generateTempCert_err_none env _ hok
    refine ⟨?_, _, _, _, _, generateTempCert_template_built env _ (hall _) (hall _) (hall _)⟩
    rw [(generateTempCert_ok env _ hall).2]
    simp [generateTempCert.calls]
  · intro v hv
    refine ⟨{ sampleEnv none "" with
        RandInt := fun _ max => v % max
        RandInt_lt := fun _ _ h => Nat.mod_lt _ h }, ?_, ?_⟩
    · rw [(generateTempCert_ok _ _ (fun s => rfl)).1]
    · refine ⟨_, _, _, _, generateTempCert_template_built _ _ rfl rfl rfl, ?_⟩
      simp only [generateTempCert.template, hpow]
      rw [Nat.mod_eq_of_lt hv]

/-- C5, at concrete inputs: a successful run, and the serial number 7. -/
theorem serial_number_is_random_draw_witness :
    (Call.RandInt .cryptoRand ((1 : Nat) <<< 128) ∈
        (generateTempCert (sampleEnv none "") ⟨fun _ => none, []⟩).2.trace ∧
      ∃ t p pub priv, Call.CreateCertificate .cryptoRand t p pub priv ∈
        (generateTempCert (sampleEnv none "") ⟨fun _ => none, []⟩).2.trace) ∧
    (∃ env1 : Env, (generateTempCert env1 ⟨fun _ => none, []⟩).1.err = none ∧
      ∃ t p pub priv, Call.CreateCertificate .cryptoRand t p pub priv ∈
        (generateTempCert env1 ⟨fun _ => none, []⟩).2.trace ∧ t.SerialNumber = some 7) :=
  ⟨(serial_number_is_random_draw (sampleEnv none "") (fun _ => none)).2.2.1 (by decide),
   (serial_number_is_random_draw (sampleEnv none "") (fun _ => none)).2.2.2 7 (by decide)⟩

theorem net.ParseIP_loopback : net.ParseIP "127.0.0.1" = some (net.IPv4 127 0 0 1) := by
  decide

/-- C6. Every certificate template that `generateTempCert` builds names
exactly `localhost` and `127.0.0.1`: `DNSNames` is `["localhost"]`,
`IPAddresses` is the one address that `net.ParseIP("127.0.0.1")` returns, which
is the IPv4 address 127.0.0.1, and no e-mail address or URI is set.  A template
is built whenever the three steps before it succeed. -/
theorem template_san_is_localhost_and_loopback (env : Env) (fs : String → Option FileState) :
    (∀ rnd t p pub priv,
      Call.CreateCertificate rnd t p pub priv ∈ (generateTempCert env ⟨fs, []⟩).2.trace →
        t.DNSNames = ["localhost"] ∧
        t.IPAddresses = [net.ParseIP "127.0.0.1"] ∧
        t.IPAddresses = [some (net.IPv4 127 0 0 1)] ∧
        t.EmailAddresses = [] ∧ t.URIs = []) ∧
    (net.IPv4 127 0 0 1).To4 = some [127, 0, 0, 1] ∧
    (env.err .MkdirTemp = none → env.err .GenerateKey = none → env.err .RandInt = none →
      ∃ rnd t p pub priv,
        Call.CreateCertificate rnd t p pub priv ∈ (generateTempCert env ⟨fs, []⟩).2.trace) := by
  refine ⟨?_, by decide, ?_⟩
  · intro rnd t p pub priv h
    obtain ⟨-, ht, -, -, -⟩ := generateTempCert_createCertificate env fs rnd t p pub priv h
    subst ht
    exact ⟨rfl, rfl, congrArg (fun x => [x]) net.ParseIP_loopback, rfl, rfl⟩
  · intro h0 h1 h2
    exact ⟨_, _, _, _, _, generateTempCert_template_built env _ h0 h1 h2⟩

/-- C6, at a concrete input: the template of a run in which every step succeeds. -/
theorem template_san_is_localhost_and_loopback_witness :
    (generateTempCert.template (sampleEnv none "")).DNSNames = ["localhost"] ∧
      (generateTempCert.template (sampleEnv none "")).IPAddresses =
        [some [0, 0, 0, 0, 0, 0, 0, 0, 0, 0, 255, 255, 127, 0, 0, 1]] :=
  have h := (template_san_is_localhost_and_loopback (sampleEnv none "") (fun _ => none)).1
    .cryptoRand (generateTempCert.template (sampleEnv none ""))
    (generateTempCert.template (sampleEnv none ""))
    ((sampleEnv none "").GenerateKey .cryptoRand 2048).PublicKey
    ((sampleEnv none "").GenerateKey .cryptoRand 2048) (by decide)
  ⟨h.1, h.2.2.1⟩

theorem x509.leaf_key_usage_bits (i : Nat) :
    (x509.KeyUsageKeyEncipherment ||| x509.KeyUsageDigitalSignature).testBit i = true ↔
      i = 0 ∨ i = 2 := by
  have h5 : x509.KeyUsageKeyEncipherment ||| x509.KeyUsageDigitalSignature = 5 := by decide
  rw [h5]
  by_cases hi : i < 3
  · interval_cases i <;> decide
  · have hlt : 5 < 2 ^ i :=
      lt_of_lt_of_le (by decide : 5 < 2 ^ 3) (Nat.pow_le_pow_right (by decide) (by omega))
    rw [Nat.testBit_lt_two_pow hlt]
    constructor
    · intro h
      exact absurd h (by decide)
    · intro h
      omega

/-- C7. Every certificate template that `generateTempCert` builds is a non-CA
leaf for server authentication only: `IsCA` is false and `BasicConstraintsValid`
true, `ExtKeyUsage` is exactly `[ExtKeyUsageServerAuth]` (no client
authentication, no code signing), and the bits set in `KeyUsage` are exactly
those of `KeyUsageDigitalSignature` (bit 0) and `KeyUsageKeyEncipherment`
(bit 2), so the bit of `KeyUsageCertSign` is not set.  A template is built
whenever the three steps before it succeed. -/
theorem template_is_server_auth_leaf (env : Env) (fs : String → Option FileState) :
    (∀ rnd t p pub priv,
      Call.CreateCertificate rnd t p pub priv ∈ (generateTempCert env ⟨fs, []⟩).2.trace →
        t.IsCA = false ∧ t.BasicConstraintsValid = true ∧
        t.ExtKeyUsage = [x509.ExtKeyUsage.ExtKeyUsageServerAuth] ∧
        x509.ExtKeyUsage.ExtKeyUsageClientAuth ∉ t.ExtKeyUsage ∧
        x509.ExtKeyUsage.ExtKeyUsageCodeSigning ∉ t.ExtKeyUsage ∧
        t.KeyUsage = x509.KeyUsageDigitalSignature ||| x509.KeyUsageKeyEncipherment ∧
        (∀ i, t.KeyUsage.testBit i = true ↔ i = 0 ∨ i = 2) ∧
        t.KeyUsage &&& x509.KeyUsageCertSign = 0) ∧
    (x509.KeyUsageDigitalSignature = 2 ^ 0 ∧ x509.KeyUsageKeyEncipherment = 2 ^ 2 ∧
      x509.KeyUsageCertSign = 2 ^ 5) ∧
    (env.err .MkdirTemp = none → env.err .GenerateKey = none → env.err .RandInt = none →
      ∃ rnd t p pub priv,
        Call.CreateCertificate rnd t p pub priv ∈ (generateTempCert env ⟨fs, []⟩).2.trace) := by
  refine ⟨?_, by decide, ?_⟩
  · intro rnd t p pub priv h
    obtain ⟨-, ht, -, -, -⟩ := generateTempCert_createCertificate env fs rnd t p pub priv h
    subst ht
    refine ⟨rfl, rfl, rfl, ?_, ?_, ?_, x509.leaf_key_usage_bits, ?_⟩
    · simp [generateTempCert.template]
    · simp [generateTempCert.template]
    · show x509.KeyUsageKeyEncipherment ||| x509.KeyUsageDigitalSignature = _
      decide
    · show (x509.KeyUsageKeyEncipherment ||| x509.KeyUsageDigitalSignature) &&& _ = 0
      decide
  · intro h0 h1 h2
    exact ⟨_, _, _, _, _, generateTempCert_template_built env _ h0 h1 h2⟩

/-- C7, at a concrete input: the template of a run in which every step succeeds. -/
theorem template_is_server_auth_leaf_witness :
    (generateTempCert.template (sampleEnv none "")).IsCA = false ∧
      (generateTempCert.template (sampleEnv none "")).BasicConstraintsValid = true ∧
      (generateTempCert.template (sampleEnv none "")).ExtKeyUsage =
        [x509.ExtKeyUsage.ExtKeyUsageServerAuth] ∧
      (generateTempCert.template (sampleEnv none "")).KeyUsage = 5 :=
  have h := (template_is_server_auth_leaf (sampleEnv none "") (fun _ => none)).1
    .cryptoRand (generateTempCert.template (sampleEnv none ""))
    (generateTempCert.template (sampleEnv none ""))
    ((sampleEnv none "").GenerateKey .cryptoRand 2048).PublicKey
    ((sampleEnv none "").GenerateKey .cryptoRand 2048) (by decide)
  ⟨h.1, h.2.1, h.2.2.1, h.2.2.2.2.2.1.trans (by decide)⟩

theorem os.create_flags :
    (os.O_RDWR ||| os.O_CREATE ||| os.O_TRUNC) &&& os.O_CREATE ≠ 0 ∧
      (os.O_RDWR ||| os.O_CREATE ||| os.O_TRUNC) &&& os.O_TRUNC ≠ 0 ∧
      (os.O_WRONLY ||| os.O_CREATE ||| os.O_TRUNC) &&& os.O_CREATE ≠ 0 ∧
      (os.O_WRONLY ||| os.O_CREATE ||| os.O_TRUNC) &&& os.O_TRUNC ≠ 0 := by
  decide

theorem generateTempCert_ok_files (env : Env) (w : World) (hall : ∀ s, env.err s = none) :
    (generateTempCert env w).2.fs (filepath.Join [env.MkdirTemp "" "stata_cert", "cert.pem"]) =
      some { Mode := match w.fs (filepath.Join [env.MkdirTemp "" "stata_cert", "cert.pem"]) with
               | some f => f.Mode
               | none => andNot 0o666 env.umask,
             Blocks := [{
               Typ := "CERTIFICATE",
               Bytes := env.CreateCertificate .cryptoRand
                 (generateTempCert.template env) (generateTempCert.template env)
                 (env.GenerateKey .cryptoRand 2048).PublicKey
                 (env.GenerateKey .cryptoRand 2048) }] } ∧
    (generateTempCert env w).2.fs (filepath.Join [env.MkdirTemp "" "stata_cert", "key.pem"]) =
      some { Mode := match w.fs (filepath.Join [env.MkdirTemp "" "stata_cert", "key.pem"]) with
               | some f => f.Mode
               | none => andNot 0o600 env.umask,
             Blocks := [{
               Typ := "PRIVATE KEY",
               Bytes := env.MarshalPKCS8PrivateKey (env.GenerateKey .cryptoRand 2048) }] } := by
  have hne := filepath.Join_cert_ne_key (env.MkdirTemp "" "stata_cert")
  obtain ⟨c1, c2, c3, c4⟩ := os.create_flags
  rw [generateTempCert_ok_fs env w hall]
  constructor
  · rw [World.write_fs, if_neg hne, World.openFile_create_fs _ _ _ _ _ c3 c4, if_neg hne,
      World.write_fs, if_pos rfl, World.openFile_create_fs _ _ _ _ _ c1 c2, if_pos rfl]
    rfl
  · rw [World.write_fs, if_pos rfl, World.openFile_create_fs _ _ _ _ _ c3 c4, if_pos rfl,
      World.write_fs, if_neg hne.symm, World.openFile_create_fs _ _ _ _ _ c1 c2, if_neg hne.symm]
    rfl

/-- C8. The certificate is self-signed with the key pair of the invocation:
every call of `x509.CreateCertificate` gets the same template as certificate
and as parent (so issuer and subject agree), as signing key the private key
that `rsa.GenerateKey(rand.Reader, 2048)` returned and as certified key its
public half; the only key marshalled, and the only `PRIVATE KEY` block
written, is that private key, to `key.pem`.  A successful invocation makes
these calls and leaves exactly that block in the key file. -/
theorem certificate_is_self_signed (env : Env) (fs : String → Option FileState) :
    (∀ rnd t p pub priv,
      Call.CreateCertificate rnd t p pub priv ∈ (generateTempCert env ⟨fs, []⟩).2.trace →
        p = t ∧ p.Subject = t.Subject ∧ priv = env.GenerateKey .cryptoRand 2048 ∧
        pub = priv.PublicKey) ∧
    (∀ rnd bits, Call.GenerateKey rnd bits ∈ (generateTempCert env ⟨fs, []⟩).2.trace →
        rnd = .cryptoRand ∧ bits = 2048) ∧
    (∀ k, Call.MarshalPKCS8PrivateKey k ∈ (generateTempCert env ⟨fs, []⟩).2.trace →
        k = env.GenerateKey .cryptoRand 2048) ∧
    (∀ out b, Call.PemEncode out b ∈ (generateTempCert env ⟨fs, []⟩).2.trace →
        b.Typ = "PRIVATE KEY" →
        out = filepath.Join [env.MkdirTemp "" "stata_cert", "key.pem"] ∧
        b.Bytes = env.MarshalPKCS8PrivateKey (env.GenerateKey .cryptoRand 2048)) ∧
    ((generateTempCert env ⟨fs, []⟩).1.err = none →
      Call.GenerateKey .cryptoRand 2048 ∈ (generateTempCert env ⟨fs, []⟩).2.trace ∧
      (∃ t, Call.CreateCertificate .cryptoRand t t
          (env.GenerateKey .cryptoRand 2048).PublicKey (env.GenerateKey .cryptoRand 2048) ∈
        (generateTempCert env ⟨fs, []⟩).2.trace) ∧
      Call.MarshalPKCS8PrivateKey (env.GenerateKey .cryptoRand 2048) ∈
        (generateTempCert env ⟨fs, []⟩).2.trace ∧
      ((generateTempCert env ⟨fs, []⟩).2.fs (generateTempCert env ⟨fs, []⟩).1.keyFile).map
          FileState.Blocks =
        some [{ Typ := "PRIVATE KEY",
                Bytes := env.MarshalPKCS8PrivateKey (env.GenerateKey .cryptoRand 2048) }]) := by
  refine ⟨?_, ?_, ?_, ?_, ?_⟩
  · intro rnd t p pub priv h
    obtain ⟨-, ht, hp, hpub, hpriv⟩ :=
      generateTempCert_createCertificate env fs rnd t p pub priv h
    subst ht hp hpub hpriv
    exact ⟨rfl, rfl, rfl, rfl⟩
  · intro rnd bits h
    have hm := generateTempCert_mem_calls env fs _ h
    simpa [generateTempCert.calls] using hm
  · intro k h
    have hm := generateTempCert_mem_calls env fs _ h
    simpa [generateTempCert.calls] using hm
  · intro out b h hb
    have hm := generateTempCert_mem_calls env fs _ h
    simp only [generateTempCert.calls, List.mem_cons, Call.PemEncode.injEq, List.mem_singleton,
      reduceCtorEq, false_or, or_false, List.not_mem_nil] at hm
    rcases hm with ⟨-, h2⟩ | ⟨h1, h2⟩
    · subst h2
      have hcert : ("CERTIFICATE" : String) ≠ "PRIVATE KEY" := by decide
      exact absurd hb hcert
    · subst h2
      exact ⟨h1, rfl⟩
  · intro hok
    have hall := generateTempCert_err_none env _ hok
    refine ⟨?_, ⟨_, generateTempCert_template_built env _ (hall _) (hall _) (hall _)⟩, ?_, ?_⟩
    · rw [(generateTempCert_ok env _ hall).2]
      simp [generateTempCert.calls]
    · rw [(generateTempCert_ok env _ hall).2]
      simp [generateTempCert.calls]
    · rw [(generateTempCert_ok env _ hall).1, (generateTempCert_ok_files env _ hall).2]
      rfl

/-- C8, at a concrete input: a run in which every step succeeds. -/
theorem certificate_is_self_signed_witness :
    ((generateTempCert (sampleEnv none "") ⟨fun _ => none, []⟩).2.fs
        "/tmp/stata_cert4021/key.pem").map FileState.Blocks =
      some [{ Typ := "PRIVATE KEY", Bytes := [0x30, 0x82, 413 % 256] }] :=
  ((certificate_is_self_signed (sampleEnv none "") (fun _ => none)).2.2.2.2 (by decide)).2.2.2

theorem andNot_owner_only (u : Nat) : andNot 0o600 u &&& 0o077 = 0 := by
  apply Nat.eq_of_testBit_eq
  intro i
  have h : (0o600 &&& 0o077 : Nat).testBit i = false := by
    have h0 : (0o600 &&& 0o077 : Nat) = 0 := by decide
    rw [h0]
    exact Nat.zero_testBit i
  rw [Nat.testBit_and] at h
  simp only [andNot, Nat.testBit_and, Nat.testBit_xor, Nat.zero_testBit]
  cases h1 : Nat.testBit 0o600 i <;> cases h2 : Nat.testBit 0o077 i <;>
    cases h3 : u.testBit i <;> simp_all

/-- C9. `key.pem` gets its permissions from the call that creates it: every
`os.OpenFile` on the key path carries `O_WRONLY|O_CREATE|O_TRUNC` and mode
`0600`, and `generateTempCert` never calls `Chmod`; for every umask `u` the mode
`0600 &^ u` has no bit of group or other; a successful invocation opens the key
file exactly once, and when the file did not exist before (the directory is
new) it ends with mode `0600 &^ umask`, without access for group or other. -/
theorem key_file_is_owner_only_from_creation (env : Env) (fs : String → Option FileState) :
    (∀ name flag perm, Call.OpenFile name flag perm ∈ (generateTempCert env ⟨fs, []⟩).2.trace →
      name = filepath.Join [env.MkdirTemp "" "stata_cert", "key.pem"] →
        flag = os.O_WRONLY ||| os.O_CREATE ||| os.O_TRUNC ∧ perm = 0o600) ∧
    (∀ name mode, Call.Chmod name mode ∉ (generateTempCert env ⟨fs, []⟩).2.trace) ∧
    (∀ u : Nat, andNot 0o600 u &&& 0o077 = 0) ∧
    ((generateTempCert env ⟨fs, []⟩).1.err = none →
      opensOf (generateTempCert env ⟨fs, []⟩).1.keyFile
          (generateTempCert env ⟨fs, []⟩).2.trace =
        [(os.O_WRONLY ||| os.O_CREATE ||| os.O_TRUNC, 0o600)] ∧
      (fs (generateTempCert env ⟨fs, []⟩).1.keyFile = none →
        ∃ f, (generateTempCert env ⟨fs, []⟩).2.fs (generateTempCert env ⟨fs, []⟩).1.keyFile =
            some f ∧
          f.Mode = andNot 0o600 env.umask ∧ f.Mode &&& 0o077 = 0)) := by
  have hne := filepath.Join_cert_ne_key (env.MkdirTemp "" "stata_cert")
  refine ⟨?_, ?_, andNot_owner_only, ?_⟩
  · intro name flag perm h hname
    have hm := generateTempCert_mem_calls env fs _ h
    simp only [generateTempCert.calls, List.mem_cons, Call.OpenFile.injEq, List.mem_singleton,
      reduceCtorEq, false_or, or_false, List.not_mem_nil] at hm
    rcases hm with ⟨h1, -, -⟩ | ⟨-, h2, h3⟩
    · exact absurd (h1.symm.trans hname) hne
    · exact ⟨h2, h3⟩
  · intro name mode h
    have hm := generateTempCert_mem_calls env fs _ h
    simp [generateTempCert.calls] at hm
  · intro hok
    have hall := generateTempCert_err_none env _ hok
    rw [(generateTempCert_ok env _ hall).1, (generateTempCert_ok env _ hall).2]
    constructor
    · simp [generateTempCert.calls, opensOf, hne]
    · intro hnew
      dsimp only at hnew
      refine ⟨_, (generateTempCert_ok_files env _ hall).2, ?_, ?_⟩
      · dsimp only
        rw [hnew]
      · dsimp only
        rw [hnew]
        exact andNot_owner_only _

/-- C9, at a concrete input: umask 022, a new directory, every step succeeds. -/
theorem key_file_is_owner_only_from_creation_witness :
    ∃ f, (generateTempCert (sampleEnv none "") ⟨fun _ => none, []⟩).2.fs
        "/tmp/stata_cert4021/key.pem" = some f ∧
      f.Mode = andNot 0o600 0o022 ∧ f.Mode &&& 0o077 = 0 :=
  ((key_file_is_owner_only_from_creation (sampleEnv none "") (fun _ => none)).2.2.2
    (by decide)).2 rfl

/-- C10. After a successful invocation the certificate file holds exactly one
PEM block, of type `CERTIFICATE`, whose bytes are what `x509.CreateCertificate`
returned, and the key file exactly one block, of type `PRIVATE KEY`, whose
bytes are the PKCS#8 encoding of the generated key; the returned paths are
`cert.pem` and `key.pem` joined to the directory that the one call of
`os.MkdirTemp` returned, two different paths with a common directory part. -/
theorem artifacts_hold_one_pem_block_each (env : Env) (fs : String → Option FileState)
    (hok : (generateTempCert env ⟨fs, []⟩).1.err = none) :
    (∃ rnd t p pub priv,
      Call.CreateCertificate rnd t p pub priv ∈ (generateTempCert env ⟨fs, []⟩).2.trace ∧
      ((generateTempCert env ⟨fs, []⟩).2.fs (generateTempCert env ⟨fs, []⟩).1.certFile).map
          FileState.Blocks =
        some [{ Typ := "CERTIFICATE", Bytes := env.CreateCertificate rnd t p pub priv }]) ∧
    (Call.GenerateKey .cryptoRand 2048 ∈ (generateTempCert env ⟨fs, []⟩).2.trace ∧
      ((generateTempCert env ⟨fs, []⟩).2.fs (generateTempCert env ⟨fs, []⟩).1.keyFile).map
          FileState.Blocks =
        some [{ Typ := "PRIVATE KEY",
                Bytes := env.MarshalPKCS8PrivateKey (env.GenerateKey .cryptoRand 2048) }]) ∧
    ((generateTempCert env ⟨fs, []⟩).2.trace.count (Call.MkdirTemp "" "stata_cert") = 1 ∧
      (∀ d pat, Call.MkdirTemp d pat ∈ (generateTempCert env ⟨fs, []⟩).2.trace →
        d = "" ∧ pat = "stata_cert") ∧
      (generateTempCert env ⟨fs, []⟩).1.certFile =
        filepath.Join [env.MkdirTemp "" "stata_cert", "cert.pem"] ∧
      (generateTempCert env ⟨fs, []⟩).1.keyFile =
        filepath.Join [env.MkdirTemp "" "stata_cert", "key.pem"]) ∧
    (generateTempCert env ⟨fs, []⟩).1.certFile ≠ (generateTempCert env ⟨fs, []⟩).1.keyFile ∧
    (∃ dir : String, (generateTempCert env ⟨fs, []⟩).1.certFile = dir ++ "cert.pem" ∧
      (generateTempCert env ⟨fs, []⟩).1.keyFile = dir ++ "key.pem") := by
  have hall := generateTempCert_err_none env _ hok
  have hres := (generateTempCert_ok env ⟨fs, []⟩ hall).1
  have htr := (generateTempCert_ok env ⟨fs, []⟩ hall).2
  have hfiles := generateTempCert_ok_files env ⟨fs, []⟩ hall
  refine ⟨⟨_, _, _, _, _, generateTempCert_template_built env _ (hall _) (hall _) (hall _), ?_⟩,
    ⟨?_, ?_⟩, ⟨?_, ?_, ?_, ?_⟩, ?_, ?_⟩
  · rw [hres, hfiles.1]
    rfl
  · rw [htr]
    simp [generateTempCert.calls]
  · rw [hres, hfiles.2]
    rfl
  · rw [htr]
    simp [generateTempCert.calls]
  · intro d pat h
    have hm := generateTempCert_mem_calls env fs _ h
    simpa [generateTempCert.calls] using hm
  · rw [hres]
  · rw [hres]
  · rw [hres]
    exact filepath.Join_cert_ne_key _
  · rw [hres]
    refine ⟨String.mk (filepath.dirPart (env.MkdirTemp "" "stata_cert")), ?_, ?_⟩
    · rw [filepath.Join_cert]
      rfl
    · rw [filepath.Join_key]
      rfl

/-- C10, at a concrete input: a run in which every step succeeds. -/
theorem artifacts_hold_one_pem_block_each_witness :
    (generateTempCert (sampleEnv none "") ⟨fun _ => none, []⟩).1.certFile =
        "/tmp/stata_cert4021/cert.pem" ∧
      (generateTempCert (sampleEnv none "") ⟨fun _ => none, []⟩).1.keyFile =
        "/tmp/stata_cert4021/key.pem" ∧
      ((generateTempCert (sampleEnv none "") ⟨fun _ => none, []⟩).2.fs
          "/tmp/stata_cert4021/key.pem").map FileState.Blocks =
        some [{ Typ := "PRIVATE KEY", Bytes := [0x30, 0x82, 413 % 256] }] :=
  have h := artifacts_hold_one_pem_block_each (sampleEnv none "") (fun _ => none) (by decide)
  ⟨h.2.2.1.2.2.1.trans (by decide), h.2.2.1.2.2.2.trans (by decide), h.2.1.2⟩

theorem generateTempCert_result_indep (env : Env) (w1 w2 : World) :
    (generateTempCert env w1).1 = (generateTempCert env w2).1 := by
  rcases env.first_failure with hall | ⟨s, e, hb, hs⟩
  · rw [(generateTempCert_ok env w1 hall).1, (generateTempCert_ok env w2 hall).1]
  · rw [generateTempCert_fail env w1 s e hb hs, generateTempCert_fail env w2 s e hb hs]

theorem generateTempCert_mem_trace (env : Env) (w : World) (c : Call)
    (h : c ∈ (generateTempCert env w).2.trace) :
    c ∈ w.trace ∨ c ∈ generateTempCert.calls env := by
  obtain ⟨n, hn⟩ := generateTempCert_trace env w
  rw [hn, List.mem_append] at h
  exact h.imp id List.mem_of_mem_take

theorem main_abs_error (flags : Flags) (env : Env) (w : World) (e : String)
    (hA : env.Abs flags.dir = .error e) :
    main flags env w = log.Fatal e [] (w.log (.Abs flags.dir)) := by
  simp only [main, hA]

theorem main_not_exist (flags : Flags) (env : Env) (w : World) (d : String)
    (hA : env.Abs flags.dir = .ok d) (hS : env.StatIsNotExist d = true) :
    main flags env w =
      log.Fatal ("Directory does not exist: " ++ d) [] ((w.log (.Abs flags.dir)).log (.Stat d)) := by
  simp only [main, hA, hS, if_true]

theorem main_plain (flags : Flags) (env : Env) (w : World) (d : String)
    (hA : env.Abs flags.dir = .ok d) (hS : env.StatIsNotExist d = false)
    (hsec : flags.secure = false) :
    main flags env w =
      log.Fatal env.ListenAndServe []
        ((((((w.log (.Abs flags.dir)).log (.Stat d)).log (.Handle "/" d)).log
          (.Printf ("Serving " ++ d ++ " on http://" ++
            (flags.bind ++ ":" ++ toString flags.port) ++ "\n"))).log
          (.ListenAndServe (flags.bind ++ ":" ++ toString flags.port)))) := by
  simp [main, hA, hS, hsec]

theorem main_secure_error (flags : Flags) (env : Env) (w : World) (d : String)
    (hA : env.Abs flags.dir = .ok d) (hS : env.StatIsNotExist d = false)
    (hsec : flags.secure = true) (e : String)
    (hg : (generateTempCert env (((w.log (.Abs flags.dir)).log (.Stat d)).log
      (.Handle "/" d))).1.err = some e) :
    main flags env w =
      log.Fatal ("Failed to generate temporary certificate: " ++ e) []
        (generateTempCert env (((w.log (.Abs flags.dir)).log (.Stat d)).log (.Handle "/" d))).2 := by
  simp only [main, hA, hS, hsec, if_true, Bool.false_eq_true, if_false]
  split
  · rename_i heq
    rw [heq] at hg ⊢
    simp only [Option.some.injEq] at hg
    rw [hg]
  · rename_i heq
    rw [heq] at hg
    simp at hg

theorem main_secure_ok (flags : Flags) (env : Env) (w : World) (d : String)
    (hA : env.Abs flags.dir = .ok d) (hS : env.StatIsNotExist d = false)
    (hsec : flags.secure = true)
    (hg : (generateTempCert env (((w.log (.Abs flags.dir)).log (.Stat d)).log
      (.Handle "/" d))).1.err = none) :
    main flags env w =
      log.Fatal env.ListenAndServeTLS
        [(generateTempCert env w).1.keyFile, (generateTempCert env w).1.certFile]
        ((((generateTempCert env (((w.log (.Abs flags.dir)).log (.Stat d)).log
            (.Handle "/" d))).2.log
          (.Printf ("Serving " ++ d ++ " on https://" ++
            (flags.bind ++ ":" ++ toString flags.port) ++ "\n"))).log
          (.ListenAndServeTLS (flags.bind ++ ":" ++ toString flags.port) tls.VersionTLS12
            (generateTempCert env w).1.certFile (generateTempCert env w).1.keyFile))) := by
  rw [generateTempCert_result_indep env w
    (((w.log (.Abs flags.dir)).log (.Stat d)).log (.Handle "/" d))]
  simp only [main, hA, hS, hsec, if_true, Bool.false_eq_true, if_false]
  split
  · rename_i heq
    rw [heq] at hg
    simp at hg
  · rename_i heq
    rw [heq]

theorem generateTempCert_calls_first (env : Env) (w : World) :
    Call.MkdirTemp "" "stata_cert" ∈ (generateTempCert env w).2.trace := by
  rcases env.first_failure with hall | ⟨s, e, hb, hs⟩
  · rw [(generateTempCert_ok env w hall).2]
    simp [generateTempCert.calls]
  · rw [generateTempCert_fail_trace env w s e hb hs]
    cases s <;> simp [generateTempCert.calls, Step.index]

theorem main_trace_cases (flags : Flags) (env : Env) (fs : String → Option FileState) (c : Call)
    (h : c ∈ (main flags env ⟨fs, []⟩).world.trace) :
    (c = .Abs flags.dir ∨ (∃ m, c = .LogPrint m) ∨ c = .Exit 1 ∨ (∃ d, c = .Stat d) ∨
      (∃ d, c = .Handle "/" d) ∨ (∃ m, c = .Printf m)) ∨
      (flags.secure = true ∧ (c ∈ generateTempCert.calls env ∨
        ((generateTempCert env ⟨fs, []⟩).1.err = none ∧
          ∃ a cf kf, c = .ListenAndServeTLS a tls.VersionTLS12 cf kf))) ∨
      (flags.secure = false ∧ ∃ a, c = .ListenAndServe a) := by
  rcases hA : env.Abs flags.dir with e | d
  · rw [main_abs_error flags env _ e hA] at h
    simp only [log.Fatal, World.log_trace, List.nil_append, List.mem_append, List.mem_singleton,
      List.mem_cons, List.not_mem_nil, or_false] at h
    rcases h with (rfl | rfl) | rfl <;> simp
  · cases hS : env.StatIsNotExist d
    · cases hsec : flags.secure
      · rw [main_plain flags env _ d hA hS hsec] at h
        simp only [log.Fatal, World.log_trace, List.nil_append, List.mem_append,
          List.mem_singleton, List.mem_cons, List.not_mem_nil, or_false] at h
        rcases h with (((((rfl | rfl) | rfl) | rfl) | rfl) | rfl) | rfl <;> simp
      · cases hg : (generateTempCert env ((((World.mk fs []).log (.Abs flags.dir)).log
            (.Stat d)).log (.Handle "/" d))).1.err
        · rw [main_secure_ok flags env _ d hA hS hsec hg] at h
          simp only [log.Fatal, World.log_trace, List.mem_append, List.mem_singleton,
            List.mem_cons, List.not_mem_nil, or_false] at h
          rcases h with (((h | rfl) | rfl) | rfl) | rfl
          · rcases generateTempCert_mem_trace env _ c h with h1 | h1
            · simp only [World.log_trace, List.nil_append, List.mem_append, List.mem_singleton,
                List.mem_cons, List.not_mem_nil, or_false] at h1
              rcases h1 with (rfl | rfl) | rfl <;> simp
            · exact Or.inr (Or.inl ⟨rfl, Or.inl h1⟩)
          · simp
          · refine Or.inr (Or.inl ⟨rfl, Or.inr ⟨?_, _, _, _, rfl⟩⟩)
            rw [generateTempCert_result_indep env ⟨fs, []⟩, hg]
          · simp
          · simp
        · rename_i e
          rw [main_secure_error flags env _ d hA hS hsec e hg] at h
          simp only [log.Fatal, World.log_trace, List.mem_append, List.mem_singleton,
            List.mem_cons, List.not_mem_nil, or_false] at h
          rcases h with (h | rfl) | rfl
          · rcases generateTempCert_mem_trace env _ c h with h1 | h1
            · simp only [World.log_trace, List.nil_append, List.mem_append, List.mem_singleton,
                List.mem_cons, List.not_mem_nil, or_false] at h1
              rcases h1 with (rfl | rfl) | rfl <;> simp
            · exact Or.inr (Or.inl ⟨rfl, Or.inl h1⟩)
          · simp
          · simp
    · rw [main_not_exist flags env _ d hA hS] at h
      simp only [log.Fatal, World.log_trace, List.nil_append, List.mem_append, List.mem_singleton,
        List.mem_cons, List.not_mem_nil, or_false] at h
      rcases h with ((rfl | rfl) | rfl) | rfl <;> simp

theorem main_fatal (flags : Flags) (env : Env) (w : World) :
    ∃ msg deferred w1, main flags env w = log.Fatal msg deferred w1 := by
  rcases hA : env.Abs flags.dir with e | d
  · exact ⟨_, _, _, main_abs_error flags env w e hA⟩
  · cases hS : env.StatIsNotExist d
    · cases hsec : flags.secure
      · exact ⟨_, _, _, main_plain flags env w d hA hS hsec⟩
      · cases hg : (generateTempCert env (((w.log (.Abs flags.dir)).log (.Stat d)).log
            (.Handle "/" d))).1.err
        · exact ⟨_, _, _, main_secure_ok flags env w d hA hS hsec hg⟩
        · exact ⟨_, _, _, main_secure_error flags env w d hA hS hsec _ hg⟩
    · exact ⟨_, _, _, main_not_exist flags env w d hA hS⟩

/-- C3. There is no plaintext fallback.  With the secure flag set no run of
`main` calls `http.ListenAndServe`; if moreover `generateTempCert` returns an
error, `main` ends in `os.Exit(1)` and has started no listener, neither plain
nor TLS.  `http.ListenAndServe` is called only when the flag is false and
`generateTempCert` (whose first call is `os.MkdirTemp`) only when it is true.
When the directory exists, the plain listener is started without the flag, and
with the flag `generateTempCert` is called and its error is logged. -/
theorem main_has_no_plaintext_fallback (flags : Flags) (env : Env)
    (fs : String → Option FileState) :
    (flags.secure = true →
      ∀ addr, Call.ListenAndServe addr ∉ (main flags env ⟨fs, []⟩).world.trace) ∧
    (flags.secure = true → (generateTempCert env ⟨fs, []⟩).1.err ≠ none →
      (main flags env ⟨fs, []⟩).code = 1 ∧
      (main flags env ⟨fs, []⟩).world.trace.getLast? = some (Call.Exit 1) ∧
      (∀ addr, Call.ListenAndServe addr ∉ (main flags env ⟨fs, []⟩).world.trace) ∧
      (∀ addr v c k,
        Call.ListenAndServeTLS addr v c k ∉ (main flags env ⟨fs, []⟩).world.trace)) ∧
    (∀ addr, Call.ListenAndServe addr ∈ (main flags env ⟨fs, []⟩).world.trace →
      flags.secure = false) ∧
    (∀ d p, Call.MkdirTemp d p ∈ (main flags env ⟨fs, []⟩).world.trace →
      flags.secure = true) ∧
    (∀ d, env.Abs flags.dir = .ok d → env.StatIsNotExist d = false →
      (flags.secure = false →
        Call.ListenAndServe (flags.bind ++ ":" ++ toString flags.port) ∈
          (main flags env ⟨fs, []⟩).world.trace) ∧
      (flags.secure = true →
        Call.MkdirTemp "" "stata_cert" ∈ (main flags env ⟨fs, []⟩).world.trace) ∧
      (flags.secure = true → ∀ e, (generateTempCert env ⟨fs, []⟩).1.err = some e →
        Call.LogPrint ("Failed to generate temporary certificate: " ++ e) ∈
          (main flags env ⟨fs, []⟩).world.trace)) := by
  have hplain : flags.secure = true →
      ∀ addr, Call.ListenAndServe addr ∉ (main flags env ⟨fs, []⟩).world.trace := by
    intro hsec addr h
    rcases main_trace_cases flags env fs _ h with h1 | ⟨-, h1 | ⟨-, h1⟩⟩ | ⟨h1, -⟩
    · simp at h1
    · simp [generateTempCert.calls] at h1
    · simp at h1
    · rw [hsec] at h1
      exact absurd h1 (by decide)
  refine ⟨hplain, ?_, ?_, ?_, ?_⟩
  · intro hsec herr
    obtain ⟨msg, deferred, w1, hm⟩ := main_fatal flags env ⟨fs, []⟩
    refine ⟨?_, ?_, hplain hsec, ?_⟩
    · rw [hm]
      rfl
    · rw [hm]
      simp [log.Fatal, World.log_trace]
    · intro addr v c k h
      rcases main_trace_cases flags env fs _ h with h1 | ⟨-, h1 | ⟨h1, -⟩⟩ | ⟨-, h1⟩
      · simp at h1
      · simp [generateTempCert.calls] at h1
      · exact herr h1
      · simp at h1
  · intro addr h
    cases hsec : flags.secure
    · rfl
    · exact absurd h (hplain hsec addr)
  · intro d p h
    rcases main_trace_cases flags env fs _ h with h1 | ⟨h1, -⟩ | ⟨-, h1⟩
    · simp at h1
    · exact h1
    · simp at h1
  · intro d hA hS
    refine ⟨?_, ?_, ?_⟩
    · intro hsec
      rw [main_plain flags env _ d hA hS hsec]
      simp [log.Fatal, World.log_trace]
    · intro hsec
      cases hg : (generateTempCert env ((((World.mk fs []).log (.Abs flags.dir)).log
          (.Stat d)).log (.Handle "/" d))).1.err
      · rw [main_secure_ok flags env _ d hA hS hsec hg]
        simp only [log.Fatal, World.log_trace, List.mem_append, List.mem_singleton]
        exact Or.inl (Or.inl (Or.inl (Or.inl (generateTempCert_calls_first env _))))
      · rw [main_secure_error flags env _ d hA hS hsec _ hg]
        simp only [log.Fatal, World.log_trace, List.mem_append, List.mem_singleton]
        exact Or.inl (Or.inl (generateTempCert_calls_first env _))
    · intro hsec e he
      rw [generateTempCert_result_indep env _ ((((World.mk fs []).log (.Abs flags.dir)).log
        (.Stat d)).log (.Handle "/" d))] at he
      rw [main_secure_error flags env _ d hA hS hsec e he]
      simp [log.Fatal, World.log_trace]

/-- C3, at a concrete input: the secure flag is set and key generation fails. -/
theorem main_has_no_plaintext_fallback_witness :
    (main { secure := true } (sampleEnv (some .GenerateKey) "no entropy")
        ⟨fun _ => none, []⟩).code = 1 ∧
      (main { secure := true } (sampleEnv (some .GenerateKey) "no entropy")
        ⟨fun _ => none, []⟩).world.trace.getLast? = some (Call.Exit 1) ∧
      Call.ListenAndServe "127.0.0.1:8080" ∉
        (main { secure := true } (sampleEnv (some .GenerateKey) "no entropy")
          ⟨fun _ => none, []⟩).world.trace ∧
      Call.ListenAndServeTLS "127.0.0.1:8080" tls.VersionTLS12 "" "" ∉
        (main { secure := true } (sampleEnv (some .GenerateKey) "no entropy")
          ⟨fun _ => none, []⟩).world.trace ∧
      Call.LogPrint
          "Failed to generate temporary certificate: failed to generate private key: no entropy" ∈
        (main { secure := true } (sampleEnv (some .GenerateKey) "no entropy")
          ⟨fun _ => none, []⟩).world.trace :=
  have h := main_has_no_plaintext_fallback { secure := true }
    (sampleEnv (some .GenerateKey) "no entropy") (fun _ => none)
  have h2 := h.2.1 rfl (by decide)
  ⟨h2.1, h2.2.1, h2.2.2.1 _, h2.2.2.2 _ _ _ _,
    (h.2.2.2.2 "/srv/." rfl rfl).2.2 rfl
      "failed to generate private key: no entropy" (by decide)⟩

/-- C1 fails on the code.  Secure mode, every step of `generateTempCert`
succeeds, and the server loop returns "address already in use": `main` leaves
through `log.Fatal`, that is `os.Exit(1)`, so the two deferred `os.Remove`
calls are still pending when the process ends; no `os.Remove` was made and
both files still exist.  Had `main` returned instead, the deferred calls would
have removed both files.  In fact no run of `main` ever calls `os.Remove`. -/
theorem main_fatal_exit_skips_deferred_cleanup :
    (∀ (flags : Flags) (env : Env) (fs : String → Option FileState) (name : String),
      Call.Remove name ∉ (main flags env ⟨fs, []⟩).world.trace) ∧
    (main { secure := true } (sampleEnv none "") emptyWorld).code = 1 ∧
    Call.ListenAndServeTLS "127.0.0.1:8080" tls.VersionTLS12 "/tmp/stata_cert4021/cert.pem"
        "/tmp/stata_cert4021/key.pem" ∈
      (main { secure := true } (sampleEnv none "") emptyWorld).world.trace ∧
    (main { secure := true } (sampleEnv none "") emptyWorld).world.trace.getLast? =
      some (Call.Exit 1) ∧
    (main { secure := true } (sampleEnv none "") emptyWorld).pending =
      ["/tmp/stata_cert4021/key.pem", "/tmp/stata_cert4021/cert.pem"] ∧
    Call.Remove "/tmp/stata_cert4021/cert.pem" ∉
      (main { secure := true } (sampleEnv none "") emptyWorld).world.trace ∧
    Call.Remove "/tmp/stata_cert4021/key.pem" ∉
      (main { secure := true } (sampleEnv none "") emptyWorld).world.trace ∧
    (main { secure := true } (sampleEnv none "") emptyWorld).world.fs
      "/tmp/stata_cert4021/cert.pem" ≠ none ∧
    (main { secure := true } (sampleEnv none "") emptyWorld).world.fs
      "/tmp/stata_cert4021/key.pem" ≠ none ∧
    (returnFromMain (main { secure := true } (sampleEnv none "") emptyWorld).pending
      (main { secure := true } (sampleEnv none "") emptyWorld).world).world.fs
        "/tmp/stata_cert4021/cert.pem" = none ∧
    (returnFromMain (main { secure := true } (sampleEnv none "") emptyWorld).pending
      (main { secure := true } (sampleEnv none "") emptyWorld).world).world.fs
        "/tmp/stata_cert4021/key.pem" = none := by
  refine ⟨?_, by decide⟩
  intro flags env fs name h
  rcases main_trace_cases flags env fs _ h with h1 | ⟨-, h1 | ⟨-, h1⟩⟩ | ⟨-, h1⟩
  · simp at h1
  · simp [generateTempCert.calls] at h1
  · simp at h1
  · simp at h1

end Stata
